import Mathlib

/-!
# Payment collection backend: ledger queries and payment recording

A shallow embedding of `backend/controllers/customerController.js`,
`backend/controllers/paymentController.js` and the validation of
`frontend/screens/PaymentScreen.js`.

* The relational store (`customers`, `payments`) is a pair of row lists with the
  auto-increment counter of `payments`; every `pool.query` of the controllers is a
  pure function of the store, and a rejected query (store unavailable) is an
  `Except.error`.
* Monetary amounts are carried through the handlers as the exact decimals of the
  `DECIMAL` columns. The JavaScript arithmetic of the balance expression, on IEEE 754
  binary64 numbers, is `remainingEmiField`; `remainingEmiField_of_wholeCents` shows
  that it yields the number of the handlers' value for amounts in whole cents of
  magnitude up to 10^12, and `remainingEmiField_sample` shows an amount with a third
  decimal place on which the two differ.
* Request fields are typed as the API documents them (text, number), each of them
  optional; JavaScript truthiness is modelled per field type.
* `Date.parse` and the store's reading of a `DATETIME` literal are parameters of the
  runtime; `toISOString` is computed, and the calendar it uses is proved to be the
  proleptic Gregorian one (`civilFromDays_spec`).
-/

namespace PaymentCollection

/-! ## Data model -/

/-- Value of a `DATETIME` column: a calendar date and a time of day, to the second. -/
structure SqlDateTime where
  year : Nat
  month : Nat
  day : Nat
  hour : Nat
  minute : Nat
  second : Nat
  deriving DecidableEq, Repr

/-- Row of the `customers` table, with the columns the controllers select. -/
structure Customer where
  id : Nat
  account_number : String
  issue_date : String
  interest_rate : ℚ
  tenure : Nat
  emi_due : ℚ
  deriving DecidableEq, Repr

/-- Row of the `payments` table. -/
structure Payment where
  id : Nat
  customer_id : Nat
  account_number : String
  payment_amount : ℚ
  payment_date : SqlDateTime
  status : String
  deriving DecidableEq, Repr

/-- The relational store behind `pool`: both tables and the `AUTO_INCREMENT`
counter of `payments` (the id the next inserted row receives). -/
structure Store where
  customers : List Customer
  payments : List Payment
  nextPaymentId : Nat
  deriving DecidableEq, Repr

/-- Every stored payment id is below the auto-increment counter, so the id handed
to the next insert is fresh. -/
def Store.WF (db : Store) : Prop :=
  ∀ p ∈ db.payments, p.id < db.nextPaymentId

instance (db : Store) : Decidable db.WF := by
  unfold Store.WF; infer_instance

/-- What a handler sends: `res.status(code).json(payload)` on the success path, or
`res.status(code).json({ message })` on a failure path. A plain `res.json(payload)`
has status 200. -/
inductive Reply (β : Type) where
  | json (status : Nat) (payload : β)
  | failure (status : Nat) (message : String)
  deriving DecidableEq, Repr

/-- Status code of a reply. -/
def Reply.status {β : Type} : Reply β → Nat
  | .json s _ => s
  | .failure s _ => s

/-- Outcome of one `await pool.query(...)`: the rows, or the thrown error. -/
abbrev Query (α : Type) := Except String α

/-- One `pool.query` round trip: when the store is unavailable the promise rejects,
otherwise it resolves to the value the statement computes. -/
def runQuery {α : Type} (up : Bool) (rows : α) : Query α :=
  if up then .ok rows else .error "store unavailable"

/-! ## SQL fragments used by the controllers -/

/-- Modelled from the spec: the collation of the text columns is declared in
`backend/database/schema.sql`, which is not part of the sources; the spec compares
account numbers as case-preserving strings and statuses with `status = 'completed'`,
so `=` on a text column is exact string equality. -/
def sqlTextEq (a b : String) : Bool := a == b

/-- SQL `SUM(...)`: `NULL` over no rows, the total otherwise. -/
def sqlSum (xs : List ℚ) : Option ℚ :=
  match xs with
  | [] => none
  | _ :: _ => some xs.sum

/-- SQL `COALESCE(x, d)`. -/
def coalesce (x : Option ℚ) (d : ℚ) : ℚ :=
  match x with
  | some v => v
  | none => d

/-- The `WHERE` clause of the monthly aggregate:
`customer_id = ? AND MONTH(payment_date) = MONTH(CURRENT_DATE())
 AND YEAR(payment_date) = YEAR(CURRENT_DATE()) AND status = 'completed'`. -/
def countsThisMonth (customerId : Nat) (today : SqlDateTime) (p : Payment) : Bool :=
  p.customer_id == customerId
    && p.payment_date.month == today.month
    && p.payment_date.year == today.year
    && sqlTextEq p.status "completed"

/-- The statement
`SELECT COALESCE(SUM(payment_amount), 0) as total_paid FROM payments WHERE ...`,
evaluated on the payments table: the value of `payments[0].total_paid`. -/
def selectTotalPaid (payments : List Payment) (customerId : Nat) (today : SqlDateTime) : ℚ :=
  coalesce (sqlSum ((payments.filter (countsThisMonth customerId today)).map
    (fun p => p.payment_amount))) 0

/-! ## JavaScript fragments used by the controllers -/

/-- JavaScript `x || d` on a numeric value: `d` when `x` is falsy (zero). -/
def orElseNum (x d : ℚ) : ℚ := if x = 0 then d else x

/-- Decimal text with a fixed number of fraction digits, as `toFixed` prints it:
an optional minus sign and the digits of `units`, the last `fractionDigits` of
them after the point. -/
structure DecimalText where
  negative : Bool
  units : Nat
  fractionDigits : Nat
  deriving DecidableEq, Repr

/-- JavaScript `Number.prototype.toFixed(f)`: for `x < 0` print a minus sign and continue with
`-x`; then take the integer `n` for which `n / 10^f - x` is as close to zero as
possible, the larger one if there are two. -/
def toFixed (x : ℚ) (f : Nat) : DecimalText :=
  if x < 0 then
    { negative := true, units := (⌊(-x) * 10 ^ f + 1 / 2⌋).toNat, fractionDigits := f }
  else
    { negative := false, units := (⌊x * 10 ^ f + 1 / 2⌋).toNat, fractionDigits := f }

/-- JavaScript `parseFloat` on the text `toFixed` printed: the number it denotes. -/
def parseFloat (t : DecimalText) : ℚ :=
  let v : ℚ := (t.units : ℚ) / 10 ^ t.fractionDigits
  if t.negative then -v else v

/-- The integer nearest to `x`, the even one when two are equally near: the rounding
of IEEE 754 arithmetic (round to nearest, ties to even). -/
def roundHalfEven (x : ℚ) : ℤ :=
  if x - ⌊x⌋ < 1 / 2 then ⌊x⌋
  else if 1 / 2 < x - ⌊x⌋ then ⌊x⌋ + 1
  else if ⌊x⌋ % 2 = 0 then ⌊x⌋ else ⌊x⌋ + 1

/-- Binary exponent of the last place of the binary64 numbers next to `x`: 52 places
below the leading bit of `x`, and -1074 throughout the subnormal range. -/
def ulpExponent (x : ℚ) : ℤ := max (Int.log 2 |x| - 52) (-1074)

/-- The JavaScript number for the real value `x` (the value of a decimal text, or the
exact result of an arithmetic operation on two numbers): the nearest IEEE 754
binary64 value, ties to even. `none` stands for an infinity, which is the result when
the rounded magnitude reaches 2^1024. -/
def toNumber (x : ℚ) : Option ℚ :=
  let v : ℚ := roundHalfEven (x / 2 ^ ulpExponent x) * 2 ^ ulpExponent x
  if |v| < 2 ^ 1024 then some v else none

/-- JavaScript `Promise.all` over already settled promises: the list of values in order, or
the first rejection. -/
def promiseAll {α : Type} : List (Query α) → Query (List α)
  | [] => .ok []
  | .error e :: _ => .error e
  | .ok a :: rest =>
    match promiseAll rest with
    | .ok as => .ok (a :: as)
    | .error e => .error e

/-! ## customerController.js -/

/-- The object `{ ...customer, total_paid_this_month, remaining_emi, emi_status }`. -/
structure CustomerWithBalance where
  customer : Customer
  total_paid_this_month : ℚ
  remaining_emi : ℚ
  emi_status : String
  deriving DecidableEq, Repr

/-- Statement `SELECT ... FROM customers ORDER BY id`. -/
def selectCustomersOrderById (customers : List Customer) : List Customer :=
  customers.insertionSort (fun a b => a.id ≤ b.id)

/-- Handler of `GET /customers`. `today` is the store's `CURRENT_DATE()`; `avail k` tells whether
the store answers query number `k` of this request (0 for the customer listing,
`i + 1` for the aggregate of the `i`-th listed customer). -/
def getAllCustomers (db : Store) (today : SqlDateTime) (avail : Nat → Bool) :
    Reply (List CustomerWithBalance) :=
  match runQuery (avail 0) (selectCustomersOrderById db.customers) with
  | .error _ => .failure 500 "Error fetching customer data"
  | .ok customers =>
    let customersWithBalance := promiseAll (customers.enum.map (fun ic =>
      let customer := ic.2
      match runQuery (avail (ic.1 + 1)) (selectTotalPaid db.payments customer.id today) with
      | .error e => .error e
      | .ok total_paid =>
        let totalPaid := orElseNum total_paid 0
        let remainingEmi := max 0 (customer.emi_due - totalPaid)
        .ok {
          customer := customer
          total_paid_this_month := totalPaid
          remaining_emi := parseFloat (toFixed remainingEmi 2)
          emi_status := if remainingEmi ≤ 0 then "paid" else "pending" }))
    match customersWithBalance with
    | .error _ => .failure 500 "Error fetching customer data"
    | .ok records => .json 200 records

/-- Handler of `GET /customers/:id`. -/
def getCustomerById (db : Store) (id : Nat) (avail : Nat → Bool) : Reply Customer :=
  match runQuery (avail 0) (db.customers.filter (fun c => c.id == id)) with
  | .error _ => .failure 500 "Error fetching customer data"
  | .ok customers =>
    match customers with
    | [] => .failure 404 "Customer not found"
    | customer :: _ => .json 200 customer

/-- Handler of `GET /customers/account/:accountNumber`. -/
def getCustomerByAccountNumber (db : Store) (today : SqlDateTime) (avail : Nat → Bool)
    (accountNumber : String) : Reply CustomerWithBalance :=
  match runQuery (avail 0)
      (db.customers.filter (fun c => sqlTextEq c.account_number accountNumber)) with
  | .error _ => .failure 500 "Error fetching customer data"
  | .ok customers =>
    match customers with
    | [] => .failure 404 "Account not found"
    | customer :: _ =>
      match runQuery (avail 1) (selectTotalPaid db.payments customer.id today) with
      | .error _ => .failure 500 "Error fetching customer data"
      | .ok total_paid =>
        let totalPaid := orElseNum total_paid 0
        let remainingEmi := max 0 (customer.emi_due - totalPaid)
        let customerWithBalance : CustomerWithBalance := {
          customer := customer
          total_paid_this_month := totalPaid
          remaining_emi := parseFloat (toFixed remainingEmi 2)
          emi_status := if remainingEmi ≤ 0 then "paid" else "pending" }
        .json 200 customerWithBalance

/-- The local `remainingEmi = Math.max(0, customer.emi_due - totalPaid)` of both
handlers on JavaScript numbers: the operands are the numbers of the two column
values and the difference is rounded to a number. `none` when a step is not finite. -/
def remainingEmi (emi_due totalPaid : ℚ) : Option ℚ := do
  let a ← toNumber emi_due
  let b ← toNumber totalPaid
  let d ← toNumber (a - b)
  pure (max 0 d)

/-- The field `remaining_emi: parseFloat(remainingEmi.toFixed(2))` of both handlers on
JavaScript numbers: `toFixed` prints the exact value of the number `remainingEmi` with
2 fraction digits and `parseFloat` gives the number of that text. -/
def remainingEmiField (emi_due totalPaid : ℚ) : Option ℚ := do
  let r ← remainingEmi emi_due totalPaid
  toNumber (parseFloat (toFixed r 2))

/-! ## paymentController.js -/

/-- The fields `makePayment` destructures from `req.body`. A field is `none` when it
is absent (`undefined`) or `null`; text fields carry a JSON string and the amount a
JSON number. -/
structure PaymentRequest where
  account_number : Option String
  payment_amount : Option ℚ
  payment_date : Option String
  status : Option String
  deriving DecidableEq, Repr

/-- JavaScript truthiness of a text field: absent and the empty string are falsy. -/
def truthyText : Option String → Bool
  | none => false
  | some s => s != ""

/-- JavaScript truthiness of a numeric field: absent and zero are falsy. -/
def truthyNum : Option ℚ → Bool
  | none => false
  | some q => q != 0

/-- What the handler reads from its surroundings besides the store: the clock, the
host's `Date` parser and the store's reading of a `DATETIME` literal. -/
structure Runtime where
  /-- Time value of `new Date()`, in milliseconds since the epoch. -/
  now : Int
  /-- Time value of `new Date(text)`; `none` for an invalid date. -/
  dateParse : String → Option Int
  /-- The `DATETIME` value the store makes of an inserted literal; `none` when the
  store rejects the literal. -/
  readDateTime : String → Option SqlDateTime

/-- Civil date `(year, month, day)` of a day number counted from 1970-01-01, in the
proleptic Gregorian calendar. -/
def civilFromDays (days : Int) : Int × Nat × Nat :=
  let z := days + 719468
  let era := z / 146097
  let doe := (z - era * 146097).toNat
  let yoe := (doe - doe / 1460 + doe / 36524 - doe / 146096) / 365
  let y : Int := (yoe : Int) + era * 400
  let doy := doe - (365 * yoe + yoe / 4 - yoe / 100)
  let mp := (5 * doy + 2) / 153
  let d := doy - (153 * mp + 2) / 5 + 1
  let m := if mp < 10 then mp + 3 else mp - 9
  (if m ≤ 2 then y + 1 else y, m, d)

/-- The decimal digit `d` as a character. -/
def digitChar (d : Nat) : Char := Char.ofNat (48 + d % 10)

/-- The last `width` decimal digits of `n`, zero padded. -/
def padDigits (width n : Nat) : List Char :=
  (List.range width).reverse.map (fun i => digitChar (n / 10 ^ i))

/-- Year part of an ISO-8601 date: four digits for the years 0 to 9999, otherwise a
sign and six digits. -/
def isoYear (y : Int) : List Char :=
  if 0 ≤ y ∧ y ≤ 9999 then padDigits 4 y.toNat
  else (if y < 0 then '-' else '+') :: padDigits 6 y.natAbs

/-- JavaScript `Date.prototype.toISOString()` of a valid time value:
`YYYY-MM-DDTHH:mm:ss.sssZ` in UTC. -/
def toISOString (tv : Int) : List Char :=
  let day := tv / 86400000
  let ms := (tv % 86400000).toNat
  let ymd := civilFromDays day
  isoYear ymd.1 ++ '-' :: padDigits 2 ymd.2.1 ++ '-' :: padDigits 2 ymd.2.2
    ++ 'T' :: padDigits 2 (ms / 3600000) ++ ':' :: padDigits 2 (ms / 60000 % 60)
    ++ ':' :: padDigits 2 (ms / 1000 % 60) ++ '.' :: padDigits 3 (ms % 1000) ++ ['Z']

/-- JavaScript `text.replace(a, b)` with a one-character pattern: only the first occurrence is
replaced. -/
def replaceFirst (a b : Char) : List Char → List Char
  | [] => []
  | c :: cs => if c = a then b :: cs else c :: replaceFirst a b cs

/-- The expression `date.toISOString().slice(0, 19).replace('T', ' ')`. -/
def formatForMySQL (tv : Int) : String :=
  String.mk (replaceFirst 'T' ' ' ((toISOString tv).take 19))

/-- The body of the 201 response: `{ message, payment: payment[0] }`. -/
structure PaymentReceipt where
  message : String
  payment : Option Payment
  deriving DecidableEq, Repr

/-- Statement `INSERT INTO payments (customer_id, account_number, payment_amount,
payment_date, status) VALUES (?, ?, ?, ?, ?)`: the store assigns the id, appends
the row and advances its counter. The result is `insertId` and the new store. -/
def insertPayment (db : Store) (customerId : Nat) (accountNumber : String) (amount : ℚ)
    (date : SqlDateTime) (status : String) : Nat × Store :=
  (db.nextPaymentId,
   { db with
     payments := db.payments ++ [{
       id := db.nextPaymentId
       customer_id := customerId
       account_number := accountNumber
       payment_amount := amount
       payment_date := date
       status := status }]
     nextPaymentId := db.nextPaymentId + 1 })

/-- The constant `formattedDate` of `makePayment`:
`payment_date ? new Date(payment_date).toISOString().slice(0, 19).replace('T', ' ')
              : new Date().toISOString().slice(0, 19).replace('T', ' ')`.
It is `none` when `toISOString` throws on an invalid date. -/
def formattedDate (rt : Runtime) (payment_date : Option String) : Option String :=
  if truthyText payment_date then
    (rt.dateParse (payment_date.getD "")).map formatForMySQL
  else some (formatForMySQL rt.now)

/-- The bound value `status || 'completed'`. -/
def statusOrCompleted (status : Option String) : String :=
  if truthyText status then status.getD "" else "completed"

/-- Handler of `POST /payments`. `avail k` tells whether the store answers query number `k` of
this request: 0 the customer lookup, 1 the insert, 2 the read-back. The result is
the reply and the store after the request. -/
def makePayment (rt : Runtime) (db : Store) (avail : Nat → Bool) (body : PaymentRequest) :
    Reply PaymentReceipt × Store :=
  if !truthyText body.account_number || !truthyNum body.payment_amount then
    (.failure 400 "Account number and payment amount are required", db)
  else
    let account_number := body.account_number.getD ""
    let payment_amount := body.payment_amount.getD 0
    match runQuery (avail 0)
        (db.customers.filter (fun c => sqlTextEq c.account_number account_number)) with
    | .error _ => (.failure 500 "Error processing payment", db)
    | .ok customers =>
      match customers with
      | [] => (.failure 404 "Account not found", db)
      | customer :: _ =>
        let customerId := customer.id
        match formattedDate rt body.payment_date with
        | none => (.failure 500 "Error processing payment", db)
        | some formattedDate =>
          match runQuery (avail 1) (rt.readDateTime formattedDate) with
          | .error _ => (.failure 500 "Error processing payment", db)
          | .ok none => (.failure 500 "Error processing payment", db)
          | .ok (some date) =>
            let result := insertPayment db customerId account_number payment_amount date
              (statusOrCompleted body.status)
            let db' := result.2
            match runQuery (avail 2) (db'.payments.filter (fun p => p.id == result.1)) with
            | .error _ => (.failure 500 "Error processing payment", db')
            | .ok payment =>
              (.json 201 { message := "Payment successful", payment := payment.head? }, db')

/-- Lexicographic comparison of two timestamps, earlier or equal. -/
def SqlDateTime.le (a b : SqlDateTime) : Bool :=
  [a.year, a.month, a.day, a.hour, a.minute, a.second]
    ≤ [b.year, b.month, b.day, b.hour, b.minute, b.second]

/-- Handler of `GET /payments/:accountNumber`:
`SELECT * FROM payments WHERE account_number = ? ORDER BY payment_date DESC`. -/
def getPaymentHistory (db : Store) (avail : Nat → Bool) (accountNumber : String) :
    Reply (List Payment) :=
  match runQuery (avail 0)
      ((db.payments.filter (fun p => sqlTextEq p.account_number accountNumber)).insertionSort
        (fun a b => SqlDateTime.le b.payment_date a.payment_date)) with
  | .error _ => .failure 500 "Error fetching payment history"
  | .ok payments => .json 200 payments

/-! ## frontend/screens/PaymentScreen.js -/

namespace PaymentScreen

/-- JavaScript white space and line terminators, the characters `trim` and
`parseFloat` skip. -/
def isWhiteSpace (c : Char) : Bool :=
  c.toNat ∈ [0x09, 0x0A, 0x0B, 0x0C, 0x0D, 0x20, 0xA0, 0x1680, 0x2028, 0x2029, 0x202F,
    0x205F, 0x3000, 0xFEFF]
  || (0x2000 ≤ c.toNat && c.toNat ≤ 0x200A)

/-- JavaScript `text.trim()`: the text without leading and trailing white space. -/
def trim (text : String) : List Char :=
  ((text.toList.dropWhile isWhiteSpace).reverse.dropWhile isWhiteSpace).reverse

/-- A JavaScript number as far as the validation looks at it: `NaN`, an infinity, or a
finite binary64 value. -/
inductive JsNumber where
  | nan
  | infinity (negative : Bool)
  | num (value : ℚ)
  deriving DecidableEq, Repr

/-- Whether the text `cs` begins with the text `p`. -/
def beginsWith : List Char → List Char → Bool
  | [], _ => true
  | _ :: _, [] => false
  | p :: ps, c :: cs => p == c && beginsWith ps cs

/-- The number a run of decimal digits denotes. -/
def digitsValue (ds : List Char) : Nat :=
  ds.foldl (fun acc c => 10 * acc + (c.toNat - 48)) 0

/-- The exponent part `e±digits` at the head of `cs`, 0 when there is none. -/
def exponentOf (cs : List Char) : Int :=
  if beginsWith ['e'] cs || beginsWith ['E'] cs then
    let rest := cs.drop 1
    let negative := beginsWith ['-'] rest
    let digits :=
      (if negative || beginsWith ['+'] rest then rest.drop 1 else rest).takeWhile Char.isDigit
    if digits.isEmpty then 0
    else if negative then -(digitsValue digits : Int) else (digitsValue digits : Int)
  else 0

/-- JavaScript `parseFloat(text)`: skip leading white space, read the longest head
that is a decimal literal (sign, `Infinity` or digits with an optional fraction and
exponent) and ignore what follows; `NaN` when no such head exists. The result is the
number of the literal's value: the nearest binary64 value, which is 0 for a magnitude
that underflows and an infinity for one that overflows. -/
def parseFloat (text : String) : JsNumber :=
  let trimmed := text.toList.dropWhile isWhiteSpace
  let negative := beginsWith ['-'] trimmed
  let unsigned :=
    if beginsWith ['-'] trimmed || beginsWith ['+'] trimmed then trimmed.drop 1 else trimmed
  if beginsWith "Infinity".toList unsigned then .infinity negative
  else
    let intDigits := unsigned.takeWhile Char.isDigit
    let afterInt := unsigned.dropWhile Char.isDigit
    let fracDigits :=
      if beginsWith ['.'] afterInt then (afterInt.drop 1).takeWhile Char.isDigit else []
    let afterFrac :=
      if beginsWith ['.'] afterInt then (afterInt.drop 1).dropWhile Char.isDigit else afterInt
    if intDigits.isEmpty && fracDigits.isEmpty then .nan
    else
      let mantissa : ℚ :=
        (digitsValue intDigits : ℚ) + (digitsValue fracDigits : ℚ) / 10 ^ fracDigits.length
      let magnitude : ℚ := mantissa * 10 ^ exponentOf afterFrac
      match toNumber magnitude with
      | none => .infinity negative
      | some value => .num (if negative then -value else value)

/-- JavaScript `x <= 0`: false for `NaN`. -/
def leZero : JsNumber → Bool
  | .nan => false
  | .infinity negative => negative
  | .num value => value ≤ 0

/-- What `handleSubmit` does with the two text fields: it shows an alert and returns,
or it goes on to `setLoading(true)`, the account verification and the `makePayment`
call, whose `payment_amount` is `parseFloat(amount)`. -/
inductive Outcome where
  | alert (title message : String)
  | proceed (account_number : String) (payment_amount : JsNumber)
  deriving DecidableEq, Repr

/-- The validation of `handleSubmit`:
`if (!accountNumber.trim()) ...; if (!amount.trim() || parseFloat(amount) <= 0) ...`. -/
def handleSubmit (accountNumber amount : String) : Outcome :=
  if (trim accountNumber).isEmpty then
    .alert "Error" "Please enter your account number"
  else if (trim amount).isEmpty || leZero (parseFloat amount) then
    .alert "Error" "Please enter a valid payment amount"
  else
    .proceed accountNumber (parseFloat amount)

end PaymentScreen

/-! ## Sample data -/

/-- The account of the spec's examples: `AC100` with an instalment of 5000.00. -/
def sampleCustomer : Customer :=
  { id := 1, account_number := "AC100", issue_date := "2024-01-15",
    interest_rate := 17 / 2, tenure := 12, emi_due := 5000 }

/-- A day in June 2024, standing for the store's `CURRENT_DATE()`. -/
def sampleToday : SqlDateTime :=
  { year := 2024, month := 6, day := 15, hour := 0, minute := 0, second := 0 }

/-- A payment row of customer 1 dated in June 2024. -/
def samplePayment (id : Nat) (amount : ℚ) (status : String) : Payment :=
  { id := id, customer_id := 1, account_number := "AC100", payment_amount := amount,
    payment_date := { year := 2024, month := 6, day := 3, hour := 10, minute := 30, second := 0 },
    status := status }

/-- A store holding the sample customer and the given payments. -/
def sampleStore (payments : List Payment) : Store :=
  { customers := [sampleCustomer], payments := payments, nextPaymentId := 100 }

/-- A store that answers every query. -/
def allUp : Nat → Bool := fun _ => true

/-- Reading of the literal `YYYY-MM-DD HH:MM:SS` by its character positions, for the
sample runtime. -/
def sampleReadDateTime (text : String) : Option SqlDateTime :=
  let cs := text.toList
  let num (i n : Nat) : Nat := ((cs.drop i).take n).foldl (fun acc c => 10 * acc + (c.toNat - 48)) 0
  if cs.length = 19 then
    some { year := num 0 4, month := num 5 2, day := num 8 2,
           hour := num 11 2, minute := num 14 2, second := num 17 2 }
  else none

/-- A runtime whose clock stands at 2024-06-15T12:00:00.000Z and whose date parser
knows one text. -/
def sampleRuntime : Runtime :=
  { now := 1718452800000
    dateParse := fun s => if s = "2024-06-03T10:30:00.000Z" then some 1717410600000 else none
    readDateTime := sampleReadDateTime }

/-- A customer whose instalment is negative, for the clamp at zero. -/
def refundCustomer : Customer :=
  { id := 2, account_number := "AC200", issue_date := "2024-02-01",
    interest_rate := 9, tenure := 6, emi_due := -100 }

/-- A customer whose instalment has a third decimal place: 0.004. -/
def subCentCustomer : Customer :=
  { id := 3, account_number := "AC300", issue_date := "2024-03-01",
    interest_rate := 9, tenure := 6, emi_due := 1 / 250 }

/-- A store with one customer and no payments. -/
def singleStore (c : Customer) : Store :=
  { customers := [c], payments := [], nextPaymentId := 1 }

/-- A store that answers no query. -/
def allDown : Nat → Bool := fun _ => false

/-- A request for the sample account dated 2024-06-03T10:30:00.000Z, without status. -/
def sampleRequest (accountNumber : Option String) (amount : Option ℚ) : PaymentRequest :=
  { account_number := accountNumber, payment_amount := amount,
    payment_date := some "2024-06-03T10:30:00.000Z", status := none }

/-- The timestamp the store holds for 2024-06-03T10:30:00.000Z. -/
def sampleStamp : SqlDateTime :=
  { year := 2024, month := 6, day := 3, hour := 10, minute := 30, second := 0 }

/-! ## The specification's words -/

/-- The spec's "rounded to 2 decimal places": the nearest multiple of 1/100. -/
def roundTo2Places (x : ℚ) : ℚ := (round (x * 100) : ℚ) / 100

/-- The spec's `remaining_emi = max(0, emi_due - total_paid_this_month)`, rounded to
2 decimal places. -/
def specRemainingEmi (emi_due total_paid : ℚ) : ℚ :=
  roundTo2Places (max 0 (emi_due - total_paid))

/-- The spec's condition for a payment to count towards a customer's month: it is
"for that customer", its `status = 'completed'`, and "the payment's month and year
equal the reference now's month and year". -/
def CountsFor (customer : Customer) (today : SqlDateTime) (p : Payment) : Prop :=
  p.customer_id = customer.id ∧ p.status = "completed"
    ∧ p.payment_date.month = today.month ∧ p.payment_date.year = today.year

instance (customer : Customer) (today : SqlDateTime) (p : Payment) :
    Decidable (CountsFor customer today p) := by
  unfold CountsFor; infer_instance

/-- The spec's "sum `payment_amount` over all Payments for that customer where
`status = 'completed'` and the payment's month and year equal the reference now's
month and year". -/
def specTotalPaid (payments : List Payment) (customer : Customer) (today : SqlDateTime) : ℚ :=
  ((payments.filter (fun p => decide (CountsFor customer today p))).map
    (fun p => p.payment_amount)).sum

/-- A balance record some ledger query returns on this store and date: the reply of
`getCustomerByAccountNumber` for some account number, or an entry of the list
`getAllCustomers` replies with. -/
def Returned (db : Store) (today : SqlDateTime) (r : CustomerWithBalance) : Prop :=
  (∃ avail accountNumber, getCustomerByAccountNumber db today avail accountNumber = .json 200 r)
  ∨ (∃ avail records, getAllCustomers db today avail = .json 200 records ∧ r ∈ records)

/-- An amount in whole cents: at most two decimal places. -/
def WholeCents (x : ℚ) : Prop := ∃ n : ℤ, x = n / 100

/-- The fields of a balance record, as either handler computes them from the
customer row it carries. -/
def BalanceFields (db : Store) (today : SqlDateTime) (r : CustomerWithBalance) : Prop :=
  r.customer ∈ db.customers
  ∧ r.total_paid_this_month = selectTotalPaid db.payments r.customer.id today
  ∧ r.remaining_emi
      = parseFloat (toFixed (max 0 (r.customer.emi_due - r.total_paid_this_month)) 2)
  ∧ r.emi_status
      = if max 0 (r.customer.emi_due - r.total_paid_this_month) ≤ 0 then "paid" else "pending"

/-- Strict comparison of two timestamps: `a` is earlier than `b`. -/
def SqlDateTime.lt (a b : SqlDateTime) : Bool := !SqlDateTime.le b a

/-- The spec's "ordered by `payment_date` descending, newest first": no row is
followed by a row with a later `payment_date`. -/
def NewestFirst (rows : List Payment) : Prop :=
  rows.Sorted (fun a b => SqlDateTime.le b.payment_date a.payment_date = true)

/-- A completed payment of 1000.00 for `AC100` on the given day of June 2024. -/
def samplePaymentOn (id day : Nat) : Payment :=
  { id := id, customer_id := 1, account_number := "AC100", payment_amount := 1000,
    payment_date := { year := 2024, month := 6, day := day, hour := 9, minute := 0, second := 0 },
    status := "completed" }

/-- A payment of another account, `AC200`. -/
def otherAccountPayment (id : Nat) : Payment :=
  { id := id, customer_id := 2, account_number := "AC200", payment_amount := 700,
    payment_date := { year := 2024, month := 6, day := 2, hour := 9, minute := 0, second := 0 },
    status := "completed" }

/-- A store with two payments of `AC100`, the older one first, and one of `AC200`. -/
def historyStore : Store :=
  { customers := [sampleCustomer, refundCustomer]
    payments := [samplePaymentOn 1 3, otherAccountPayment 2, samplePaymentOn 3 20]
    nextPaymentId := 4 }

/-- A valid request for `AC100` of 3000.00 that carries the given status field. -/
def sampleRequestWithStatus (status : Option String) : PaymentRequest :=
  { account_number := some "AC100", payment_amount := some 3000,
    payment_date := some "2024-06-03T10:30:00.000Z", status := status }

/-- A store that answers the customer lookup and the insert but not the read-back. -/
def readBackDown : Nat → Bool := fun k => k != 2

/-- The row a valid sample request of 3000.00 leaves in `sampleStore`. -/
def sampleNewRow (status : String) : Payment :=
  { id := 100, customer_id := 1, account_number := "AC100", payment_amount := 3000,
    payment_date := sampleStamp, status := status }

/-- A request for `AC100` of 3000.00 whose `payment_date` is no date. -/
def invalidDateRequest : PaymentRequest :=
  { account_number := some "AC100", payment_amount := some 3000,
    payment_date := some "not-a-date", status := none }

/-! ## The calendar and the normalized timestamp, in the specification's words -/

/-- Leap years of the proleptic Gregorian calendar. -/
def isLeapYear (y : Int) : Bool := y % 4 == 0 && (y % 100 != 0 || y % 400 == 0)

/-- Number of days of month `m` in year `y`. -/
def daysInMonth (y : Int) (m : Nat) : Nat :=
  match m with
  | 2 => if isLeapYear y then 29 else 28
  | 4 | 6 | 9 | 11 => 30
  | _ => 31

/-- Number of days of year `y` that lie before the first day of month `m`. -/
def daysBeforeMonth (y : Int) (m : Nat) : Nat :=
  ((List.range (m - 1)).map (fun i => daysInMonth y (i + 1))).sum

/-- Number of days from 0000-01-01 to the first day of year `y`: 365 per year and one
more for every leap year in between. -/
def daysBeforeYear (y : Int) : Int :=
  365 * y + (y + 3) / 4 - (y + 99) / 100 + (y + 399) / 400

/-- Day number of the calendar date `y-m-d`, counted from 1970-01-01. -/
def daysFromCivil (y : Int) (m d : Nat) : Int :=
  daysBeforeYear y + daysBeforeMonth y m + d - 1 - 719528

/-- The spec's "date-and-time truncated to whole seconds": the UTC calendar date and
time of day of the instant `tv` (milliseconds since the epoch), with the milliseconds
dropped. -/
def utcDateTime (tv : Int) : SqlDateTime :=
  let sec := tv / 1000
  let ymd := civilFromDays (sec / 86400)
  let sod := (sec % 86400).toNat
  { year := ymd.1.toNat, month := ymd.2.1, day := ymd.2.2,
    hour := sod / 3600, minute := sod / 60 % 60, second := sod % 60 }

/-- The text `YYYY-MM-DD HH:MM:SS` of a timestamp. -/
def timestampText (t : SqlDateTime) : List Char :=
  padDigits 4 t.year ++ '-' :: padDigits 2 t.month ++ '-' :: padDigits 2 t.day
    ++ ' ' :: padDigits 2 t.hour ++ ':' :: padDigits 2 t.minute ++ ':' :: padDigits 2 t.second

/-- The number of whole seconds since the epoch that a calendar timestamp denotes. -/
def secondsOf (t : SqlDateTime) : Int :=
  daysFromCivil t.year t.month t.day * 86400 + t.hour * 3600 + t.minute * 60 + t.second

/-! ## Ledger query: auxiliary facts -/

theorem orElseNum_zero (x : ℚ) : orElseNum x 0 = x := by
  unfold orElseNum
  split_ifs with h
  · exact h.symm
  · rfl

theorem parseFloat_toFixed_of_nonneg {x : ℚ} (hx : 0 ≤ x) (f : Nat) :
    parseFloat (toFixed x f) = (⌊x * 10 ^ f + 1 / 2⌋ : ℚ) / 10 ^ f := by
  have hfloor : (0 : ℤ) ≤ ⌊x * 10 ^ f + 1 / 2⌋ := by
    apply Int.floor_nonneg.mpr
    positivity
  have hcast : (((⌊x * 10 ^ f + 1 / 2⌋).toNat : ℕ) : ℚ) = ((⌊x * 10 ^ f + 1 / 2⌋ : ℤ) : ℚ) := by
    have := Int.toNat_of_nonneg hfloor
    exact_mod_cast this
  simp only [toFixed, not_lt.mpr hx, if_false, parseFloat, Bool.false_eq_true, hcast]

theorem parseFloat_toFixed_two {x : ℚ} (hx : 0 ≤ x) :
    parseFloat (toFixed x 2) = roundTo2Places x := by
  rw [parseFloat_toFixed_of_nonneg hx, roundTo2Places, round_eq]
  norm_num

theorem roundTo2Places_zero : roundTo2Places 0 = 0 := by
  simp [roundTo2Places]

theorem roundTo2Places_nonneg {x : ℚ} (hx : 0 ≤ x) : 0 ≤ roundTo2Places x := by
  unfold roundTo2Places
  have h : (0 : ℤ) ≤ round (x * 100) := by
    rw [round_eq]
    apply Int.floor_nonneg.mpr
    positivity
  have h' : (0 : ℚ) ≤ (round (x * 100) : ℚ) := by exact_mod_cast h
  positivity

/-- The result of `roundTo2Places` is a whole number of cents within half a cent of
its argument. -/
theorem roundTo2Places_nearest (x : ℚ) :
    WholeCents (roundTo2Places x) ∧ |x - roundTo2Places x| ≤ 1 / 200 := by
  refine ⟨⟨round (x * 100), rfl⟩, ?_⟩
  have h := abs_sub_round (x * 100)
  have e : x - roundTo2Places x = (x * 100 - (round (x * 100) : ℚ)) / 100 := by
    unfold roundTo2Places; ring
  rw [e, abs_div]
  have : |(100 : ℚ)| = 100 := abs_of_pos (by norm_num)
  rw [this]
  linarith

theorem roundTo2Places_of_wholeCents {x : ℚ} (hx : WholeCents x) : roundTo2Places x = x := by
  obtain ⟨n, rfl⟩ := hx
  unfold roundTo2Places
  have : (n : ℚ) / 100 * 100 = (n : ℚ) := by ring
  rw [this, round_intCast]

theorem selectTotalPaid_eq_sum (payments : List Payment) (customerId : Nat) (today : SqlDateTime) :
    selectTotalPaid payments customerId today
      = ((payments.filter (countsThisMonth customerId today)).map
          (fun p => p.payment_amount)).sum := by
  unfold selectTotalPaid sqlSum coalesce
  cases h : (payments.filter (countsThisMonth customerId today)).map (fun p => p.payment_amount) with
  | nil => simp
  | cons a as => simp

theorem countsThisMonth_iff (customer : Customer) (today : SqlDateTime) (p : Payment) :
    countsThisMonth customer.id today p = true ↔ CountsFor customer today p := by
  simp only [countsThisMonth, sqlTextEq, Bool.and_eq_true, beq_iff_eq, CountsFor]
  tauto

theorem selectTotalPaid_eq_spec (payments : List Payment) (customer : Customer)
    (today : SqlDateTime) :
    selectTotalPaid payments customer.id today = specTotalPaid payments customer today := by
  rw [selectTotalPaid_eq_sum, specTotalPaid]
  congr 2
  apply List.filter_congr
  intro p _
  rw [Bool.eq_iff_iff, countsThisMonth_iff, decide_eq_true_iff]

theorem promiseAll_eq_ok {α : Type} :
    ∀ (qs : List (Query α)) (rs : List α), promiseAll qs = .ok rs ↔ qs = rs.map Except.ok
  | [], rs => by
    cases rs <;> simp [promiseAll]
  | .error e :: qs, rs => by
    cases rs <;> simp [promiseAll]
  | .ok a :: qs, rs => by
    have ih := promiseAll_eq_ok qs
    cases hq : promiseAll qs with
    | error e =>
      have hne : ∀ rs' : List α, qs ≠ rs'.map Except.ok := fun rs' h => by
        have := (ih rs').mpr h
        rw [hq] at this
        cases this
      cases rs with
      | nil => simp [promiseAll, hq]
      | cons r rs' =>
        constructor
        · intro h
          simp [promiseAll, hq] at h
        · intro h
          simp only [List.map_cons, List.cons.injEq] at h
          exact absurd h.2 (hne rs')
    | ok as =>
      have has : qs = as.map Except.ok := (ih as).mp hq
      cases rs with
      | nil => simp [promiseAll, hq]
      | cons r rs' =>
        simp only [promiseAll, hq, List.map_cons, List.cons.injEq, Except.ok.injEq]
        constructor
        · rintro ⟨rfl, rfl⟩
          exact ⟨rfl, has⟩
        · rintro ⟨rfl, h⟩
          refine ⟨rfl, ?_⟩
          have : promiseAll qs = .ok rs' := (ih rs').mpr h
          rw [hq] at this
          exact Except.ok.inj this

theorem getCustomerByAccountNumber_found {db : Store} {today : SqlDateTime} {avail : Nat → Bool}
    {accountNumber : String} {c : Customer} {rest : List Customer}
    (h0 : avail 0 = true) (h1 : avail 1 = true)
    (hc : db.customers.filter (fun c => sqlTextEq c.account_number accountNumber) = c :: rest) :
    getCustomerByAccountNumber db today avail accountNumber = .json 200
      { customer := c
        total_paid_this_month := selectTotalPaid db.payments c.id today
        remaining_emi :=
          parseFloat (toFixed (max 0 (c.emi_due - selectTotalPaid db.payments c.id today)) 2)
        emi_status :=
          if max 0 (c.emi_due - selectTotalPaid db.payments c.id today) ≤ 0 then "paid"
          else "pending" } := by
  simp only [getCustomerByAccountNumber, runQuery, h0, h1, if_true, hc, orElseNum_zero]

theorem getCustomerByAccountNumber_fields {db : Store} {today : SqlDateTime}
    {avail : Nat → Bool} {accountNumber : String} {r : CustomerWithBalance}
    (h : getCustomerByAccountNumber db today avail accountNumber = .json 200 r) :
    BalanceFields db today r ∧ r.customer.account_number = accountNumber := by
  cases h0 : avail 0 with
  | false => simp [getCustomerByAccountNumber, runQuery, h0] at h
  | true =>
    cases hc : db.customers.filter (fun c => sqlTextEq c.account_number accountNumber) with
    | nil => simp [getCustomerByAccountNumber, runQuery, h0, hc] at h
    | cons c rest =>
      cases h1 : avail 1 with
      | false => simp [getCustomerByAccountNumber, runQuery, h0, hc, h1] at h
      | true =>
        rw [getCustomerByAccountNumber_found h0 h1 hc] at h
        have hr := (Reply.json.inj h).2
        subst hr
        have hmem : c ∈ db.customers.filter (fun c => sqlTextEq c.account_number accountNumber) := by
          rw [hc]; exact List.mem_cons_self _ _
        rw [List.mem_filter] at hmem
        refine ⟨⟨hmem.1, rfl, rfl, rfl⟩, ?_⟩
        simpa [sqlTextEq] using hmem.2

theorem getAllCustomers_fields {db : Store} {today : SqlDateTime} {avail : Nat → Bool}
    {records : List CustomerWithBalance}
    (h : getAllCustomers db today avail = .json 200 records) :
    ∀ r ∈ records, BalanceFields db today r := by
  cases h0 : avail 0 with
  | false => simp [getAllCustomers, runQuery, h0] at h
  | true =>
    simp only [getAllCustomers, runQuery, h0, if_true] at h
    split at h
    · cases h
    · rename_i rs hrs
      have hrec : rs = records := (Reply.json.inj h).2
      subst hrec
      rw [promiseAll_eq_ok] at hrs
      intro r hr
      have hmem : (Except.ok r : Query CustomerWithBalance) ∈ rs.map Except.ok :=
        List.mem_map_of_mem _ hr
      rw [← hrs, List.mem_map] at hmem
      obtain ⟨ic, hic, hq⟩ := hmem
      have hcust : ic.2 ∈ db.customers := by
        have := List.snd_mem_of_mem_enum hic
        exact (List.mem_insertionSort _).mp this
      cases hav : avail (ic.1 + 1) with
      | false => simp [hav] at hq
      | true =>
        simp only [hav, if_true, orElseNum_zero, Except.ok.injEq] at hq
        subst hq
        exact ⟨hcust, rfl, rfl, rfl⟩

theorem getAllCustomers_up {db : Store} {today : SqlDateTime} {avail : Nat → Bool}
    (hup : ∀ k, avail k = true) :
    ∃ records, getAllCustomers db today avail = .json 200 records
      ∧ records.map (fun r => r.customer) = selectCustomersOrderById db.customers := by
  refine ⟨(selectCustomersOrderById db.customers).enum.map (fun ic =>
    { customer := ic.2
      total_paid_this_month := selectTotalPaid db.payments ic.2.id today
      remaining_emi :=
        parseFloat (toFixed (max 0 (ic.2.emi_due - selectTotalPaid db.payments ic.2.id today)) 2)
      emi_status :=
        if max 0 (ic.2.emi_due - selectTotalPaid db.payments ic.2.id today) ≤ 0 then "paid"
        else "pending" }), ?_, ?_⟩
  · have hall : promiseAll ((selectCustomersOrderById db.customers).enum.map (fun ic =>
        match runQuery (avail (ic.1 + 1)) (selectTotalPaid db.payments ic.2.id today) with
        | .error e => (.error e : Query CustomerWithBalance)
        | .ok total_paid =>
          .ok {
            customer := ic.2
            total_paid_this_month := orElseNum total_paid 0
            remaining_emi :=
              parseFloat (toFixed (max 0 (ic.2.emi_due - orElseNum total_paid 0)) 2)
            emi_status :=
              if max 0 (ic.2.emi_due - orElseNum total_paid 0) ≤ 0 then "paid"
              else "pending" }))
        = .ok ((selectCustomersOrderById db.customers).enum.map (fun ic =>
          { customer := ic.2
            total_paid_this_month := selectTotalPaid db.payments ic.2.id today
            remaining_emi :=
              parseFloat
                (toFixed (max 0 (ic.2.emi_due - selectTotalPaid db.payments ic.2.id today)) 2)
            emi_status :=
              if max 0 (ic.2.emi_due - selectTotalPaid db.payments ic.2.id today) ≤ 0
              then "paid" else "pending" })) := by
      rw [promiseAll_eq_ok, List.map_map]
      apply List.map_congr_left
      intro ic _
      simp only [runQuery, hup, if_true, orElseNum_zero, Function.comp]
    simp only [getAllCustomers, runQuery, hup, if_true] at hall ⊢
    rw [hall]
  · rw [List.map_map]
    exact List.enum_map_snd _

theorem returned_fields {db : Store} {today : SqlDateTime} {r : CustomerWithBalance}
    (h : Returned db today r) : BalanceFields db today r := by
  rcases h with ⟨avail, acct, h⟩ | ⟨avail, records, h, hr⟩
  · exact (getCustomerByAccountNumber_fields h).1
  · exact getAllCustomers_fields h r hr

theorem max_zero_nonpos_iff (x : ℚ) : max 0 x ≤ 0 ↔ x ≤ 0 :=
  ⟨fun h => le_trans (le_max_right _ _) h, fun h => max_le (le_refl _) h⟩

theorem parseFloat_toFixed_two_eq {x : ℚ} (n : ℕ) (hx : 0 ≤ x)
    (h1 : (n : ℚ) ≤ x * 100 + 1 / 2) (h2 : x * 100 + 1 / 2 < n + 1) :
    parseFloat (toFixed x 2) = (n : ℚ) / 100 := by
  rw [parseFloat_toFixed_of_nonneg hx]
  have hfl : ⌊x * 10 ^ 2 + 1 / 2⌋ = (n : ℤ) := by
    rw [Int.floor_eq_iff]
    constructor
    · push_cast; linarith
    · push_cast; linarith
  rw [hfl]
  norm_num

/-- Evaluation of `getCustomerByAccountNumber` once the lookup, the monthly total and
the rounding are known. -/
theorem getCustomerByAccountNumber_eval {db : Store} {today : SqlDateTime} {avail : Nat → Bool}
    {accountNumber : String} {c : Customer} {t : List Customer} {total rem : ℚ}
    {status : String} (h0 : avail 0 = true) (h1 : avail 1 = true)
    (hc : db.customers.filter (fun c => sqlTextEq c.account_number accountNumber) = c :: t)
    (htotal : selectTotalPaid db.payments c.id today = total)
    (hrem : parseFloat (toFixed (max 0 (c.emi_due - total)) 2) = rem)
    (hstatus : (if max 0 (c.emi_due - total) ≤ 0 then "paid" else "pending") = status) :
    getCustomerByAccountNumber db today avail accountNumber = .json 200
      { customer := c, total_paid_this_month := total, remaining_emi := rem,
        emi_status := status } := by
  rw [getCustomerByAccountNumber_found h0 h1 hc, htotal, hrem, hstatus]

theorem selectTotalPaid_nil (customerId : Nat) (today : SqlDateTime) :
    selectTotalPaid [] customerId today = 0 := by
  simp [selectTotalPaid_eq_sum]

theorem selectTotalPaid_sample (amount : ℚ) :
    selectTotalPaid [samplePayment 1 amount "completed"] 1 sampleToday = amount := by
  simp [selectTotalPaid_eq_sum, countsThisMonth, sqlTextEq, samplePayment, sampleToday]

theorem sample_partly_paid_reply :
    getCustomerByAccountNumber (sampleStore [samplePayment 1 3000 "completed"]) sampleToday
        allUp "AC100"
      = .json 200 { customer := sampleCustomer, total_paid_this_month := 3000,
                    remaining_emi := 2000, emi_status := "pending" } :=
  getCustomerByAccountNumber_eval (c := sampleCustomer) (t := []) rfl rfl rfl
    (selectTotalPaid_sample 3000)
    (by
      have e : max (0 : ℚ) (sampleCustomer.emi_due - 3000) = 2000 := by
        norm_num [sampleCustomer]
      rw [e, parseFloat_toFixed_two_eq 200000 (by norm_num) (by norm_num) (by norm_num)]
      norm_num)
    (by norm_num [sampleCustomer])

theorem sample_partly_paid_returned :
    Returned (sampleStore [samplePayment 1 3000 "completed"]) sampleToday
      { customer := sampleCustomer, total_paid_this_month := 3000, remaining_emi := 2000,
        emi_status := "pending" } :=
  Or.inl ⟨allUp, "AC100", sample_partly_paid_reply⟩

/-! ## The balance expression on binary64 numbers -/

theorem roundHalfEven_sub_le (x : ℚ) : |(roundHalfEven x : ℚ) - x| ≤ 1 / 2 := by
  have h1 := Int.floor_le x
  have h2 := Int.lt_floor_add_one x
  unfold roundHalfEven
  split_ifs with ha hb hc
  · rw [abs_le]; constructor <;> linarith
  · rw [abs_le]; push_cast; constructor <;> linarith
  · rw [abs_le]; constructor <;> linarith
  · rw [abs_le]; push_cast; constructor <;> linarith

theorem roundHalfEven_eq_of_lt {x : ℚ} {n : ℤ} (h : |x - n| < 1 / 2) : roundHalfEven x = n := by
  rw [abs_lt] at h
  obtain ⟨hl, hr⟩ := h
  unfold roundHalfEven
  by_cases hn : (n : ℚ) ≤ x
  · have hf : ⌊x⌋ = n := by
      rw [Int.floor_eq_iff]; constructor <;> linarith
    rw [hf, if_pos (by linarith)]
  · have hf : ⌊x⌋ = n - 1 := by
      rw [Int.floor_eq_iff]; push_cast; constructor <;> linarith
    rw [hf]
    push_cast
    rw [if_neg (by linarith), if_pos (by linarith)]
    ring

theorem ulpExponent_le {x : ℚ} {k : ℤ} (h : |x| < 2 ^ k) (hk : 1 ≤ k) :
    ulpExponent x ≤ k - 53 ∧ -1074 ≤ ulpExponent x := by
  unfold ulpExponent
  refine ⟨?_, le_max_right _ _⟩
  have hlog : Int.log 2 |x| < k := by
    rcases (abs_nonneg x).eq_or_lt with h0 | hpos
    · rw [← h0, Int.log_of_right_le_zero 2 (le_refl _)]; omega
    · exact (Int.lt_zpow_iff_log_lt (by norm_num) hpos).mp (by exact_mod_cast h)
  rw [max_le_iff]
  constructor <;> omega

theorem toNumber_near {x : ℚ} {k : ℤ} (h : |x| < 2 ^ k) (hk : 1 ≤ k) (hk2 : k ≤ 1023) :
    ∃ v, toNumber x = some v ∧ |v - x| ≤ 2 ^ (k - 54) := by
  obtain ⟨hu, hl⟩ := ulpExponent_le h hk
  have hpos : (0 : ℚ) < 2 ^ ulpExponent x := zpow_pos (by norm_num) _
  have hne : (2 : ℚ) ^ ulpExponent x ≠ 0 := ne_of_gt hpos
  have herr : |(roundHalfEven (x / 2 ^ ulpExponent x) : ℚ) * 2 ^ ulpExponent x - x|
      ≤ 2 ^ (k - 54) := by
    have e : (roundHalfEven (x / 2 ^ ulpExponent x) : ℚ) * 2 ^ ulpExponent x - x
        = ((roundHalfEven (x / 2 ^ ulpExponent x) : ℚ) - x / 2 ^ ulpExponent x)
          * 2 ^ ulpExponent x := by
      field_simp
    rw [e, abs_mul, abs_of_pos hpos]
    have h2 : (2 : ℚ) ^ ulpExponent x ≤ 2 ^ (k - 53) := zpow_le_zpow_right₀ (by norm_num) hu
    have h3 : (2 : ℚ) ^ (k - 53) = 2 * 2 ^ (k - 54) := by
      rw [show k - 53 = (k - 54) + 1 by ring, zpow_add_one₀ (by norm_num)]; ring
    have := roundHalfEven_sub_le (x / 2 ^ ulpExponent x)
    calc |(roundHalfEven (x / 2 ^ ulpExponent x) : ℚ) - x / 2 ^ ulpExponent x|
          * 2 ^ ulpExponent x
        ≤ 1 / 2 * 2 ^ (k - 53) := by
          apply mul_le_mul this h2 (le_of_lt hpos) (by norm_num)
      _ = 2 ^ (k - 54) := by rw [h3]; ring
  refine ⟨_, ?_, herr⟩
  unfold toNumber
  simp only
  rw [if_pos]
  have hb := abs_sub_abs_le_abs_sub
    ((roundHalfEven (x / 2 ^ ulpExponent x) : ℚ) * 2 ^ ulpExponent x) x
  have h4 : (2 : ℚ) ^ (k - 54) ≤ 2 ^ k := zpow_le_zpow_right₀ (by norm_num) (by omega)
  have h5 : (2 : ℚ) ^ k ≤ 2 ^ (1023 : ℤ) := zpow_le_zpow_right₀ (by norm_num) hk2
  have h6 : (2 : ℚ) ^ (1024 : ℕ) = 2 * 2 ^ (1023 : ℤ) := by norm_num
  rw [h6]
  linarith


theorem toNumber_eq {x : ℚ} (k n : ℤ) (hlo : (2 : ℚ) ^ k ≤ |x|) (hhi : |x| < (2 : ℚ) ^ (k + 1))
    (hk : -1074 ≤ k - 52) (hr : |x / (2 : ℚ) ^ (k - 52) - n| < 1 / 2)
    (hfin : |(n : ℚ) * (2 : ℚ) ^ (k - 52)| < 2 ^ 1024) :
    toNumber x = some ((n : ℚ) * (2 : ℚ) ^ (k - 52)) := by
  have hpos : 0 < |x| := lt_of_lt_of_le (zpow_pos (by norm_num) k) hlo
  have hlog : Int.log 2 |x| = k := by
    apply le_antisymm
    · have := (Int.lt_zpow_iff_log_lt (b := 2) (by norm_num) hpos).mp (by exact_mod_cast hhi)
      omega
    · exact (Int.zpow_le_iff_le_log (b := 2) (by norm_num) hpos).mp (by exact_mod_cast hlo)
  have hu : ulpExponent x = k - 52 := by
    unfold ulpExponent
    rw [hlog, max_eq_left hk]
  unfold toNumber
  simp only [hu, roundHalfEven_eq_of_lt hr]
  rw [if_pos hfin]

theorem toNumber_zero : toNumber 0 = some 0 := by
  have hr : roundHalfEven 0 = 0 := roundHalfEven_eq_of_lt (n := 0) (by norm_num)
  unfold toNumber
  simp [hr]

/-- On amounts in whole cents of magnitude up to 10^12 the binary64 evaluation of the
balance expression gives the number of the exact clamped difference. -/
theorem remainingEmiField_of_wholeCents {e t : ℚ} (he : WholeCents e) (ht : WholeCents t)
    (hbe : |e| ≤ 10 ^ 12) (hbt : |t| ≤ 10 ^ 12) :
    remainingEmiField e t = toNumber (max 0 (e - t))
      ∧ ∃ v, toNumber (max 0 (e - t)) = some v ∧ |v - max 0 (e - t)| ≤ 1 / 8192 := by
  obtain ⟨a, ha, hae⟩ := toNumber_near (x := e) (k := 40)
    (lt_of_le_of_lt hbe (by norm_num)) (by norm_num) (by norm_num)
  obtain ⟨b, hb, hbe'⟩ := toNumber_near (x := t) (k := 40)
    (lt_of_le_of_lt hbt (by norm_num)) (by norm_num) (by norm_num)
  have h14 : (2 : ℚ) ^ ((40 : ℤ) - 54) = 1 / 16384 := by norm_num
  have h13 : (2 : ℚ) ^ ((41 : ℤ) - 54) = 1 / 8192 := by norm_num
  rw [h14] at hae hbe'
  rw [abs_le] at hae hbe' hbe hbt
  have hab : |a - b| < 2 ^ (41 : ℤ) := by
    rw [abs_lt]; constructor <;> norm_num <;> linarith
  obtain ⟨d, hd, hde⟩ := toNumber_near (x := a - b) (k := 41) hab (by norm_num) (by norm_num)
  rw [h13] at hde
  rw [abs_le] at hde
  have hdiff : |max 0 d - max 0 (e - t)| ≤ 1 / 4096 := by
    rw [max_comm 0 d, max_comm 0 (e - t)]
    refine le_trans (abs_max_sub_max_le_abs d (e - t) 0) ?_
    rw [abs_le]; constructor <;> linarith
  obtain ⟨m, hm⟩ : ∃ m : ℕ, max 0 (e - t) = (m : ℚ) / 100 := by
    obtain ⟨p, hp⟩ := he
    obtain ⟨q, hq⟩ := ht
    by_cases hle : e - t ≤ 0
    · exact ⟨0, by rw [max_eq_left hle]; norm_num⟩
    · have hpq : 0 ≤ p - q := by
        have : (0 : ℚ) < ((p - q : ℤ) : ℚ) / 100 := by
          push_cast; rw [hp, hq] at hle; push_neg at hle; linarith
        have : (0 : ℚ) < ((p - q : ℤ) : ℚ) := by linarith
        exact_mod_cast le_of_lt this
      refine ⟨(p - q).toNat, ?_⟩
      rw [max_eq_right (le_of_lt (not_le.mp hle)), hp, hq]
      have : (((p - q).toNat : ℤ) : ℚ) = ((p - q : ℤ) : ℚ) := by rw [Int.toNat_of_nonneg hpq]
      rw [show (((p - q).toNat : ℕ) : ℚ) = (((p - q).toNat : ℤ) : ℚ) by norm_cast, this]
      push_cast; ring
  have hfix : parseFloat (toFixed (max 0 d) 2) = max 0 (e - t) := by
    rw [abs_le, hm] at hdiff
    have hfl : ⌊max 0 d * 10 ^ 2 + 1 / 2⌋ = (m : ℤ) := by
      rw [Int.floor_eq_iff]; push_cast; constructor <;> linarith
    unfold toFixed
    rw [if_neg (not_lt.mpr (le_max_left _ _)), hfl, hm]
    simp [parseFloat]
    norm_num
  have hbound : |max 0 (e - t)| < 2 ^ (41 : ℤ) := by
    rw [abs_of_nonneg (le_max_left _ _), max_lt_iff]
    constructor
    · norm_num
    · norm_num; linarith
  obtain ⟨v, hv, hve⟩ := toNumber_near (x := max 0 (e - t)) (k := 41) hbound (by norm_num)
    (by norm_num)
  refine ⟨?_, v, hv, le_trans hve (le_of_eq h13)⟩
  simp [remainingEmiField, remainingEmi, ha, hb, hd, hfix]

/-- At `emi_due` 1.005 with nothing paid the expression gives 1. -/
theorem remainingEmiField_sample :
    remainingEmiField (201 / 200) 0 = some 1 := by
  have ha : toNumber (201 / 200) = some (4526117625507348 / 4503599627370496) := by
    rw [toNumber_eq 0 4526117625507348 (by norm_num [abs_of_pos]) (by norm_num [abs_of_pos])
      (by norm_num) (by norm_num [abs_lt]) (by norm_num [abs_lt])]
    norm_num
  have hd : toNumber (4526117625507348 / 4503599627370496)
      = some (4526117625507348 / 4503599627370496) := by
    rw [toNumber_eq 0 4526117625507348 (by norm_num [abs_of_pos]) (by norm_num [abs_of_pos])
      (by norm_num) (by norm_num [abs_lt]) (by norm_num [abs_lt])]
    norm_num
  have h1 : toNumber 1 = some 1 := by
    rw [toNumber_eq 0 4503599627370496 (by norm_num) (by norm_num)
      (by norm_num) (by norm_num [abs_lt]) (by norm_num [abs_lt])]
    norm_num
  have hfix : parseFloat (toFixed (max 0 (4526117625507348 / 4503599627370496 : ℚ)) 2) = 1 := by
    have hfl : ⌊max 0 (4526117625507348 / 4503599627370496 : ℚ) * 10 ^ 2 + 1 / 2⌋ = 100 := by
      rw [Int.floor_eq_iff]; norm_num
    unfold toFixed
    rw [if_neg (not_lt.mpr (le_max_left _ _)), hfl]
    simp [parseFloat]
    norm_num
  simp [remainingEmiField, remainingEmi, ha, toNumber_zero, hd, hfix, h1]

/-! ## Ledger query: the claims -/

/-- C1 as stated fails: for `emi_due` 1.005 and nothing paid this month, the expression
`parseFloat(Math.max(0, customer.emi_due - totalPaid).toFixed(2))` of both handlers
gives the number 1, because the number of 1.005 lies below 1.005; but
`max(0, emi_due - total_paid_this_month)` rounded to 2 decimal places is 1.01, whose
number is not 1. -/
theorem remaining_emi_counterexample :
    remainingEmiField (201 / 200) 0 = some 1
      ∧ specRemainingEmi (201 / 200) 0 = 101 / 100
      ∧ toNumber (specRemainingEmi (201 / 200) 0) ≠ some 1 := by
  have hspec : specRemainingEmi (201 / 200) 0 = 101 / 100 := by
    have hround : round ((201 / 200 : ℚ) * 100) = 101 := by
      rw [round_eq, Int.floor_eq_iff]; norm_num
    have hmax : max (0 : ℚ) (201 / 200 - 0) = 201 / 200 := by norm_num
    rw [specRemainingEmi, roundTo2Places, hmax, hround]
    norm_num
  refine ⟨remainingEmiField_sample, hspec, ?_⟩
  rw [hspec, toNumber_eq 0 4548635623644201 (by norm_num [abs_of_pos])
    (by norm_num [abs_of_pos]) (by norm_num) (by norm_num [abs_lt]) (by norm_num [abs_lt])]
  norm_num

/-- C1, amended: in every balance record returned by `getCustomerByAccountNumber` or
listed by `getAllCustomers` whose `emi_due` and `total_paid_this_month` are amounts in
whole cents of magnitude at most 10^12, `remaining_emi` equals
`max(0, emi_due - total_paid_this_month)` rounded to 2 decimal places, which is the
clamped difference itself; and the handlers' expression evaluated on JavaScript
numbers gives the number of that value, a finite number within 1/8192 of it. -/
theorem remaining_emi_eq_rounded_clamp (db : Store) (today : SqlDateTime)
    (r : CustomerWithBalance) (h : Returned db today r)
    (he : WholeCents r.customer.emi_due) (ht : WholeCents r.total_paid_this_month)
    (hbe : |r.customer.emi_due| ≤ 10 ^ 12) (hbt : |r.total_paid_this_month| ≤ 10 ^ 12) :
    r.remaining_emi = specRemainingEmi r.customer.emi_due r.total_paid_this_month
    ∧ r.remaining_emi = max 0 (r.customer.emi_due - r.total_paid_this_month)
    ∧ remainingEmiField r.customer.emi_due r.total_paid_this_month = toNumber r.remaining_emi
    ∧ ∃ v, toNumber r.remaining_emi = some v ∧ |v - r.remaining_emi| ≤ 1 / 8192 := by
  obtain ⟨_, _, hrem, _⟩ := returned_fields h
  have hspec : r.remaining_emi
      = specRemainingEmi r.customer.emi_due r.total_paid_this_month := by
    rw [hrem, specRemainingEmi, parseFloat_toFixed_two (le_max_left _ _)]
  have hcents : WholeCents (max 0 (r.customer.emi_due - r.total_paid_this_month)) := by
    obtain ⟨a, ha⟩ := he
    obtain ⟨b, hb⟩ := ht
    by_cases hle : r.customer.emi_due - r.total_paid_this_month ≤ 0
    · rw [max_eq_left hle]; exact ⟨0, by norm_num⟩
    · rw [max_eq_right (le_of_lt (not_le.mp hle))]
      exact ⟨a - b, by rw [ha, hb]; push_cast; ring⟩
  have hexact : r.remaining_emi = max 0 (r.customer.emi_due - r.total_paid_this_month) := by
    rw [hspec, specRemainingEmi, roundTo2Places_of_wholeCents hcents]
  obtain ⟨hnum, v, hv, hve⟩ := remainingEmiField_of_wholeCents he ht hbe hbt
  rw [← hexact] at hnum hv hve
  exact ⟨hspec, hexact, hnum, v, hv, hve⟩

/-- Witness for C1, amended: the account with `emi_due` 5000.00 and one completed
payment of 3000.00 this month is answered with `remaining_emi` 2000.00, and the
expression on JavaScript numbers gives the number 2000. -/
theorem remaining_emi_eq_rounded_clamp_witness :
    Returned (sampleStore [samplePayment 1 3000 "completed"]) sampleToday
        { customer := sampleCustomer, total_paid_this_month := 3000, remaining_emi := 2000,
          emi_status := "pending" }
      ∧ (2000 : ℚ) = specRemainingEmi 5000 3000
      ∧ (2000 : ℚ) = max 0 (5000 - 3000)
      ∧ remainingEmiField 5000 3000 = toNumber 2000 :=
  have hthm := remaining_emi_eq_rounded_clamp _ _ _ sample_partly_paid_returned
    ⟨500000, by norm_num [sampleCustomer]⟩ ⟨300000, by norm_num⟩
    (by norm_num [sampleCustomer, abs_le]) (by norm_num [abs_le])
  ⟨sample_partly_paid_returned, hthm.1, hthm.2.1, hthm.2.2.1⟩

/-- Evaluation of the lookup on a store with a single customer and no payments. -/
theorem getCustomerByAccountNumber_single {c : Customer} {today : SqlDateTime} {rem : ℚ}
    {status : String}
    (hrem : parseFloat (toFixed (max 0 (c.emi_due - 0)) 2) = rem)
    (hstatus : (if max 0 (c.emi_due - 0) ≤ 0 then "paid" else "pending") = status) :
    getCustomerByAccountNumber (singleStore c) today allUp c.account_number = .json 200
      { customer := c, total_paid_this_month := 0, remaining_emi := rem,
        emi_status := status } :=
  getCustomerByAccountNumber_eval (c := c) (t := []) rfl rfl
    (by simp [singleStore, sqlTextEq]) (selectTotalPaid_nil _ _) hrem hstatus

theorem refundCustomer_reply :
    getCustomerByAccountNumber (singleStore refundCustomer) sampleToday allUp "AC200"
      = .json 200 { customer := refundCustomer, total_paid_this_month := 0,
                    remaining_emi := 0, emi_status := "paid" } :=
  getCustomerByAccountNumber_single (c := refundCustomer)
    (by
      have e : max (0 : ℚ) (refundCustomer.emi_due - 0) = 0 := by norm_num [refundCustomer]
      rw [e, parseFloat_toFixed_two_eq 0 (by norm_num) (by norm_num) (by norm_num)]
      norm_num)
    (by norm_num [refundCustomer])

theorem subCentCustomer_reply :
    getCustomerByAccountNumber (singleStore subCentCustomer) sampleToday allUp "AC300"
      = .json 200 { customer := subCentCustomer, total_paid_this_month := 0,
                    remaining_emi := 0, emi_status := "pending" } :=
  getCustomerByAccountNumber_single (c := subCentCustomer)
    (by
      have e : max (0 : ℚ) (subCentCustomer.emi_due - 0) = 1 / 250 := by
        norm_num [subCentCustomer]
      rw [e, parseFloat_toFixed_two_eq 0 (by norm_num) (by norm_num) (by norm_num)]
      norm_num)
    (by norm_num [subCentCustomer])

/-- C2: the `remaining_emi` of every returned balance record is non-negative, whatever
the customer's `emi_due` (negative and zero included) and whatever was paid. -/
theorem remaining_emi_nonneg (db : Store) (today : SqlDateTime) (r : CustomerWithBalance)
    (h : Returned db today r) : 0 ≤ r.remaining_emi := by
  obtain ⟨_, _, hrem, _⟩ := returned_fields h
  rw [hrem, parseFloat_toFixed_two (le_max_left _ _)]
  exact roundTo2Places_nonneg (le_max_left _ _)

/-- Witness for C2: a customer with the negative instalment -100 is answered with
`remaining_emi` 0. -/
theorem remaining_emi_nonneg_witness :
    Returned (singleStore refundCustomer) sampleToday
        { customer := refundCustomer, total_paid_this_month := 0, remaining_emi := 0,
          emi_status := "paid" }
      ∧ (0 : ℚ) ≤ (0 : ℚ) :=
  have hret : Returned (singleStore refundCustomer) sampleToday
      { customer := refundCustomer, total_paid_this_month := 0, remaining_emi := 0,
        emi_status := "paid" } :=
    Or.inl ⟨allUp, "AC200", refundCustomer_reply⟩
  ⟨hret, remaining_emi_nonneg _ _ _ hret⟩

/-- C3 as stated fails: for an instalment of 0.004 and nothing paid, the returned record
has `remaining_emi` 0 (so `remaining_emi <= 0`) together with `emi_status` "pending". -/
theorem emi_status_counterexample :
    ∃ r, getCustomerByAccountNumber (singleStore subCentCustomer) sampleToday allUp "AC300"
          = .json 200 r
      ∧ r.remaining_emi ≤ 0 ∧ r.emi_status = "pending" :=
  ⟨_, subCentCustomer_reply, le_refl _, rfl⟩

/-- C3, amended: in every returned balance record `emi_status` is "paid" when
`emi_due - total_paid_this_month <= 0` (the remainder before rounding) and "pending"
otherwise; a "paid" record has `remaining_emi` 0; and when `emi_due` and the total are
whole cents, `emi_status` is "paid" exactly when the returned `remaining_emi <= 0`. -/
theorem emi_status_by_unrounded_remainder (db : Store) (today : SqlDateTime)
    (r : CustomerWithBalance) (h : Returned db today r) :
    (r.emi_status
        = if r.customer.emi_due - r.total_paid_this_month ≤ 0 then "paid" else "pending")
    ∧ (r.emi_status = "paid" → r.remaining_emi = 0)
    ∧ (WholeCents r.customer.emi_due → WholeCents r.total_paid_this_month →
        r.emi_status = if r.remaining_emi ≤ 0 then "paid" else "pending") := by
  obtain ⟨_, _, hrem, hst⟩ := returned_fields h
  rw [parseFloat_toFixed_two (le_max_left _ _)] at hrem
  have hstatus : r.emi_status
      = if r.customer.emi_due - r.total_paid_this_month ≤ 0 then "paid" else "pending" := by
    rw [hst, if_congr (max_zero_nonpos_iff _) rfl rfl]
  refine ⟨hstatus, ?_, ?_⟩
  · intro hpaid
    by_cases hle : r.customer.emi_due - r.total_paid_this_month ≤ 0
    · rw [hrem, max_eq_left hle, roundTo2Places_zero]
    · rw [hstatus, if_neg hle] at hpaid
      exact absurd hpaid (by decide)
  · rintro ⟨a, ha⟩ ⟨b, hb⟩
    have hcents : WholeCents (max 0 (r.customer.emi_due - r.total_paid_this_month)) := by
      by_cases hle : r.customer.emi_due - r.total_paid_this_month ≤ 0
      · rw [max_eq_left hle]; exact ⟨0, by norm_num⟩
      · rw [max_eq_right (le_of_lt (not_le.mp hle))]
        exact ⟨a - b, by rw [ha, hb]; push_cast; ring⟩
    rw [roundTo2Places_of_wholeCents hcents] at hrem
    rw [hst, hrem]

/-- Witness for C3, amended: the spec's example record (5000.00 due, 3000.00 paid,
whole cents) is "pending" with a positive `remaining_emi`. -/
theorem emi_status_by_unrounded_remainder_witness :
    Returned (sampleStore [samplePayment 1 3000 "completed"]) sampleToday
        { customer := sampleCustomer, total_paid_this_month := 3000, remaining_emi := 2000,
          emi_status := "pending" }
      ∧ ("pending" = if sampleCustomer.emi_due - 3000 ≤ 0 then "paid" else "pending")
      ∧ ("pending" = if (2000 : ℚ) ≤ 0 then "paid" else "pending") :=
  have hthm := emi_status_by_unrounded_remainder _ _ _ sample_partly_paid_returned
  ⟨sample_partly_paid_returned, hthm.1,
    hthm.2.2 ⟨500000, by norm_num [sampleCustomer]⟩ ⟨300000, by norm_num⟩⟩

theorem specTotalPaid_insert_other (customer : Customer) (today : SqlDateTime) (p : Payment)
    (ps₁ ps₂ : List Payment) (hp : ¬ CountsFor customer today p) :
    specTotalPaid (ps₁ ++ p :: ps₂) customer today = specTotalPaid (ps₁ ++ ps₂) customer today := by
  simp [specTotalPaid, List.filter_append, List.filter_cons, hp]

theorem specTotalPaid_of_none (customer : Customer) (today : SqlDateTime) (ps : List Payment)
    (hnone : ∀ p ∈ ps, ¬ CountsFor customer today p) : specTotalPaid ps customer today = 0 := by
  have : ps.filter (fun p => decide (CountsFor customer today p)) = [] := by
    rw [List.filter_eq_nil_iff]
    intro p hp
    simpa using hnone p hp
  simp [specTotalPaid, this]

theorem returned_total_eq_spec {db : Store} {today : SqlDateTime} {r : CustomerWithBalance}
    (h : Returned db today r) :
    r.total_paid_this_month = specTotalPaid db.payments r.customer today := by
  obtain ⟨_, htot, _, _⟩ := returned_fields h
  rw [htot, selectTotalPaid_eq_spec]

theorem sample_fully_paid_returned :
    Returned (sampleStore [samplePayment 1 6000 "completed"]) sampleToday
      { customer := sampleCustomer, total_paid_this_month := 6000, remaining_emi := 0,
        emi_status := "paid" } :=
  Or.inl ⟨allUp, "AC100",
    getCustomerByAccountNumber_eval (c := sampleCustomer) (t := []) rfl rfl rfl
      (selectTotalPaid_sample 6000)
      (by
        have e : max (0 : ℚ) (sampleCustomer.emi_due - 6000) = 0 := by
          norm_num [sampleCustomer]
        rw [e, parseFloat_toFixed_two_eq 0 (by norm_num) (by norm_num) (by norm_num)]
        norm_num)
      (by norm_num [sampleCustomer])⟩

theorem sample_unpaid_returned :
    Returned (sampleStore []) sampleToday
      { customer := sampleCustomer, total_paid_this_month := 0, remaining_emi := 5000,
        emi_status := "pending" } :=
  Or.inl ⟨allUp, "AC100",
    getCustomerByAccountNumber_eval (c := sampleCustomer) (t := []) rfl rfl rfl
      (selectTotalPaid_nil _ _)
      (by
        have e : max (0 : ℚ) (sampleCustomer.emi_due - 0) = 5000 := by
          norm_num [sampleCustomer]
        rw [e, parseFloat_toFixed_two_eq 500000 (by norm_num) (by norm_num) (by norm_num)]
        norm_num)
      (by norm_num [sampleCustomer])⟩

/-- C4: when the completed payments of the current month sum to at least `emi_due`,
the returned record has `remaining_emi = 0` and `emi_status = "paid"`. -/
theorem paid_when_total_covers_due (db : Store) (today : SqlDateTime)
    (r : CustomerWithBalance) (h : Returned db today r)
    (hsum : r.customer.emi_due ≤ specTotalPaid db.payments r.customer today) :
    r.remaining_emi = 0 ∧ r.emi_status = "paid" := by
  obtain ⟨_, _, hrem, hst⟩ := returned_fields h
  have hle : r.customer.emi_due - r.total_paid_this_month ≤ 0 := by
    rw [returned_total_eq_spec h]; linarith
  rw [hrem, hst, max_eq_left hle]
  refine ⟨?_, if_pos (le_refl _)⟩
  rw [parseFloat_toFixed_two (le_refl _), roundTo2Places_zero]

/-- Witness for C4: `emi_due` 5000.00 with 6000.00 paid this month is answered with
`remaining_emi` 0 and "paid". -/
theorem paid_when_total_covers_due_witness :
    Returned (sampleStore [samplePayment 1 6000 "completed"]) sampleToday
        { customer := sampleCustomer, total_paid_this_month := 6000, remaining_emi := 0,
          emi_status := "paid" }
      ∧ sampleCustomer.emi_due
          ≤ specTotalPaid [samplePayment 1 6000 "completed"] sampleCustomer sampleToday
      ∧ (0 : ℚ) = 0 ∧ "paid" = "paid" :=
  have hsum : sampleCustomer.emi_due
      ≤ specTotalPaid [samplePayment 1 6000 "completed"] sampleCustomer sampleToday := by
    rw [← selectTotalPaid_eq_spec]
    show (5000 : ℚ) ≤ selectTotalPaid [samplePayment 1 6000 "completed"] 1 sampleToday
    rw [selectTotalPaid_sample]
    norm_num
  ⟨sample_fully_paid_returned, hsum,
    paid_when_total_covers_due _ _ _ sample_fully_paid_returned hsum⟩

/-- C5 as stated fails: a customer with the instalment -100 and no payments is answered
with `remaining_emi` 0, which is not `emi_due`, and with `emi_status` "paid" although
`emi_due` is not 0. -/
theorem no_payments_counterexample :
    ∃ r, getCustomerByAccountNumber (singleStore refundCustomer) sampleToday allUp "AC200"
          = .json 200 r
      ∧ (singleStore refundCustomer).payments = []
      ∧ r.customer.emi_due ≠ 0
      ∧ r.remaining_emi ≠ r.customer.emi_due
      ∧ r.emi_status ≠ "pending" :=
  ⟨_, refundCustomer_reply, rfl, by norm_num [refundCustomer], by norm_num [refundCustomer],
    by decide⟩

/-- C5, amended: for a customer with no completed payments in the current month the
returned record has `total_paid_this_month = 0`; its `remaining_emi` is never negative,
is 0 when `emi_due <= 0`, and is `emi_due` itself when `emi_due` is a non-negative
amount in whole cents of at most 10^12 (the expression on JavaScript numbers then
gives the number of `emi_due`); and `emi_status` is "pending" unless `emi_due <= 0`,
when it is "paid". -/
theorem balance_without_payments (db : Store) (today : SqlDateTime)
    (r : CustomerWithBalance) (h : Returned db today r)
    (hnone : ∀ p ∈ db.payments, ¬ CountsFor r.customer today p) :
    r.total_paid_this_month = 0
    ∧ 0 ≤ r.remaining_emi
    ∧ (r.customer.emi_due ≤ 0 → r.remaining_emi = 0)
    ∧ (0 ≤ r.customer.emi_due → WholeCents r.customer.emi_due →
        r.customer.emi_due ≤ 10 ^ 12 →
        r.remaining_emi = r.customer.emi_due
        ∧ remainingEmiField r.customer.emi_due r.total_paid_this_month
            = toNumber r.customer.emi_due)
    ∧ r.emi_status = if r.customer.emi_due ≤ 0 then "paid" else "pending" := by
  have htot : r.total_paid_this_month = 0 := by
    rw [returned_total_eq_spec h]; exact specTotalPaid_of_none _ _ _ hnone
  obtain ⟨_, _, hrem, hst⟩ := returned_fields h
  rw [parseFloat_toFixed_two (le_max_left _ _), htot, sub_zero] at hrem
  rw [htot, sub_zero, if_congr (max_zero_nonpos_iff _) rfl rfl] at hst
  refine ⟨htot, ?_, ?_, ?_, hst⟩
  · rw [hrem]; exact roundTo2Places_nonneg (le_max_left _ _)
  · intro hle
    rw [hrem, max_eq_left hle, roundTo2Places_zero]
  · intro hpos hcents hbound
    have hnum := (remainingEmiField_of_wholeCents (e := r.customer.emi_due) (t := 0) hcents
      ⟨0, by norm_num⟩ (by rw [abs_of_nonneg hpos]; exact hbound) (by norm_num)).1
    rw [sub_zero, max_eq_right hpos] at hnum
    rw [htot]
    exact ⟨by rw [hrem, max_eq_right hpos, roundTo2Places_of_wholeCents hcents], hnum⟩

/-- Witness for C5, amended: the spec's example, `emi_due` 5000.00 and no payments this
month, is answered with total 0, `remaining_emi` 5000.00 and "pending". -/
theorem balance_without_payments_witness :
    Returned (sampleStore []) sampleToday
        { customer := sampleCustomer, total_paid_this_month := 0, remaining_emi := 5000,
          emi_status := "pending" }
      ∧ (0 : ℚ) = 0
      ∧ (0 : ℚ) ≤ 5000
      ∧ (5000 : ℚ) = sampleCustomer.emi_due
      ∧ remainingEmiField sampleCustomer.emi_due 0 = toNumber sampleCustomer.emi_due
      ∧ "pending" = if sampleCustomer.emi_due ≤ 0 then "paid" else "pending" :=
  have hthm := balance_without_payments _ _ _ sample_unpaid_returned (fun _ hp => nomatch hp)
  have hcents := hthm.2.2.2.1 (by norm_num [sampleCustomer])
    ⟨500000, by norm_num [sampleCustomer]⟩ (by norm_num [sampleCustomer])
  ⟨sample_unpaid_returned, hthm.1, hthm.2.1, hcents.1, hcents.2, hthm.2.2.2.2⟩

theorem sample_with_pending_returned :
    Returned (sampleStore [samplePayment 1 3000 "completed", samplePayment 2 500 "pending"])
      sampleToday
      { customer := sampleCustomer, total_paid_this_month := 3000, remaining_emi := 2000,
        emi_status := "pending" } :=
  Or.inl ⟨allUp, "AC100",
    getCustomerByAccountNumber_eval (c := sampleCustomer) (t := []) rfl rfl rfl
      (by
        show selectTotalPaid [samplePayment 1 3000 "completed", samplePayment 2 500 "pending"]
          1 sampleToday = 3000
        simp [selectTotalPaid_eq_sum, countsThisMonth, sqlTextEq, samplePayment, sampleToday])
      (by
        have e : max (0 : ℚ) (sampleCustomer.emi_due - 3000) = 2000 := by
          norm_num [sampleCustomer]
        rw [e, parseFloat_toFixed_two_eq 200000 (by norm_num) (by norm_num) (by norm_num)]
        norm_num)
      (by norm_num [sampleCustomer])⟩

/-- C6: in every returned balance record `total_paid_this_month` is the sum of
`payment_amount` over exactly the payments of that customer with status 'completed'
and dated in the month and year of the current date; it is 0 when there are none; and
a store that holds one more payment with another status, another month or year, or
another customer gives the same total. -/
theorem total_paid_this_month_spec (db : Store) (today : SqlDateTime)
    (r : CustomerWithBalance) (h : Returned db today r) :
    r.total_paid_this_month = specTotalPaid db.payments r.customer today
    ∧ ((∀ p ∈ db.payments, ¬ CountsFor r.customer today p) → r.total_paid_this_month = 0)
    ∧ (∀ (db' : Store) (r' : CustomerWithBalance) (p : Payment) (ps₁ ps₂ : List Payment),
        db.payments = ps₁ ++ ps₂ → db'.payments = ps₁ ++ p :: ps₂ →
        (p.status ≠ "completed" ∨ p.payment_date.month ≠ today.month
          ∨ p.payment_date.year ≠ today.year ∨ p.customer_id ≠ r.customer.id) →
        Returned db' today r' → r'.customer = r.customer →
        r'.total_paid_this_month = r.total_paid_this_month) := by
  obtain ⟨_, htot, _, _⟩ := returned_fields h
  have hspec : r.total_paid_this_month = specTotalPaid db.payments r.customer today := by
    rw [htot, selectTotalPaid_eq_spec]
  refine ⟨hspec, ?_, ?_⟩
  · intro hnone
    rw [hspec]
    exact specTotalPaid_of_none _ _ _ hnone
  · intro db' r' p ps₁ ps₂ hdb hdb' hother h' hcust
    obtain ⟨_, htot', _, _⟩ := returned_fields h'
    have hp : ¬ CountsFor r.customer today p := by
      rintro ⟨h1, h2, h3, h4⟩
      rcases hother with ho | ho | ho | ho
      · exact ho h2
      · exact ho h3
      · exact ho h4
      · exact ho h1
    rw [htot', selectTotalPaid_eq_spec, hcust, hdb', specTotalPaid_insert_other _ _ _ _ _ hp,
      ← hdb, ← hspec]

/-- Witness for C6: with one completed payment of 3000.00 this month the returned
total is 3000.00, the spec's sum, and a further payment with status "pending" leaves
it at 3000.00. -/
theorem total_paid_this_month_spec_witness :
    Returned (sampleStore [samplePayment 1 3000 "completed"]) sampleToday
        { customer := sampleCustomer, total_paid_this_month := 3000, remaining_emi := 2000,
          emi_status := "pending" }
      ∧ (3000 : ℚ)
          = specTotalPaid [samplePayment 1 3000 "completed"] sampleCustomer sampleToday
      ∧ (3000 : ℚ) = 3000 :=
  have hthm := total_paid_this_month_spec _ _ _ sample_partly_paid_returned
  ⟨sample_partly_paid_returned, hthm.1,
    hthm.2.2 (sampleStore [samplePayment 1 3000 "completed", samplePayment 2 500 "pending"])
      _ (samplePayment 2 500 "pending") [samplePayment 1 3000 "completed"] [] rfl rfl
      (Or.inl (by decide)) sample_with_pending_returned rfl⟩

/-! ## Payment recording: auxiliary facts -/

theorem truthyText_some {a : String} (ha : a ≠ "") : truthyText (some a) = true := by
  simp [truthyText, ha]

theorem truthyNum_some {q : ℚ} (hq : q ≠ 0) : truthyNum (some q) = true := by
  simp [truthyNum, hq]

/-- The read-back `SELECT * FROM payments WHERE id = ?` after an insert into a
well-formed store finds the inserted row and nothing else. -/
theorem readBack_insertPayment {db : Store} (hwf : db.WF) (customerId : Nat)
    (accountNumber : String) (amount : ℚ) (date : SqlDateTime) (status : String) :
    (insertPayment db customerId accountNumber amount date status).2.payments.filter
        (fun p => p.id == (insertPayment db customerId accountNumber amount date status).1)
      = [{ id := db.nextPaymentId, customer_id := customerId, account_number := accountNumber,
           payment_amount := amount, payment_date := date, status := status }] := by
  have hold : db.payments.filter (fun p => p.id == db.nextPaymentId) = [] := by
    rw [List.filter_eq_nil_iff]
    intro p hp
    have := hwf p hp
    simp only [beq_iff_eq]
    omega
  simp [insertPayment, List.filter_append, hold]

theorem insertPayment_wf {db : Store} (hwf : db.WF) (customerId : Nat)
    (accountNumber : String) (amount : ℚ) (date : SqlDateTime) (status : String) :
    (insertPayment db customerId accountNumber amount date status).2.WF := by
  intro p hp
  simp only [insertPayment, List.mem_append, List.mem_singleton] at hp ⊢
  rcases hp with hp | rfl
  · exact Nat.lt_succ_of_lt (hwf p hp)
  · exact Nat.lt_succ_self _

/-- The path of `makePayment` once validation has passed and the customer lookup has
answered with at least one row. -/
theorem makePayment_of_customer {rt : Runtime} {db : Store} {avail : Nat → Bool}
    {body : PaymentRequest} {a : String} {q : ℚ} {c : Customer} {t : List Customer}
    (ha : body.account_number = some a) (hane : a ≠ "")
    (hq : body.payment_amount = some q) (hq0 : q ≠ 0) (h0 : avail 0 = true)
    (hc : db.customers.filter (fun c => sqlTextEq c.account_number a) = c :: t) :
    makePayment rt db avail body =
      match formattedDate rt body.payment_date with
      | none => (.failure 500 "Error processing payment", db)
      | some text =>
        match runQuery (avail 1) (rt.readDateTime text) with
        | .error _ => (.failure 500 "Error processing payment", db)
        | .ok none => (.failure 500 "Error processing payment", db)
        | .ok (some date) =>
          match runQuery (avail 2)
              ((insertPayment db c.id a q date (statusOrCompleted body.status)).2.payments.filter
                (fun p => p.id
                  == (insertPayment db c.id a q date (statusOrCompleted body.status)).1)) with
          | .error _ =>
            (.failure 500 "Error processing payment",
              (insertPayment db c.id a q date (statusOrCompleted body.status)).2)
          | .ok payment =>
            (.json 201 { message := "Payment successful", payment := payment.head? },
              (insertPayment db c.id a q date (statusOrCompleted body.status)).2) := by
  simp only [makePayment, ha, hq, truthyText_some hane, truthyNum_some hq0, Bool.not_true,
    Bool.or_self, Bool.false_eq_true, if_false, Option.getD_some, runQuery, h0, if_true, hc]

/-- The bad-request path: a falsy account number or amount ends the request before
any query. -/
theorem makePayment_of_falsy {rt : Runtime} {db : Store} {avail : Nat → Bool}
    {body : PaymentRequest}
    (h : truthyText body.account_number = false ∨ truthyNum body.payment_amount = false) :
    makePayment rt db avail body
      = (.failure 400 "Account number and payment amount are required", db) := by
  rcases h with h | h <;> simp [makePayment, h]

theorem sampleStore_lookup (ps : List Payment) :
    (sampleStore ps).customers.filter (fun c => sqlTextEq c.account_number "AC100")
      = [sampleCustomer] := rfl

theorem sampleStore_lookup_unknown (ps : List Payment) :
    ∀ c ∈ (sampleStore ps).customers, c.account_number ≠ "ZZ999" := by
  intro c hc
  simp only [sampleStore, List.mem_singleton] at hc
  subst hc
  decide

theorem sample_formattedDate :
    formattedDate sampleRuntime (sampleRequest (some "AC100") (some 3000)).payment_date
      = some "2024-06-03 10:30:00" := rfl

theorem sample_readDateTime :
    sampleRuntime.readDateTime "2024-06-03 10:30:00" = some sampleStamp := rfl

/-! ## Payment recording: the claims -/

/-- C7: a request in which `account_number` or `payment_amount` is missing is answered
with the bad-request failure (400) and leaves the store unchanged, whatever the store
holds and whether or not it answers queries: the decision is taken before any query,
so it precedes the not-found check. -/
theorem makePayment_missing_field (rt : Runtime) (db : Store) (avail : Nat → Bool)
    (body : PaymentRequest)
    (h : body.account_number = none ∨ body.payment_amount = none) :
    makePayment rt db avail body
      = (.failure 400 "Account number and payment amount are required", db) := by
  apply makePayment_of_falsy
  rcases h with h | h
  · left; rw [h]; rfl
  · right; rw [h]; rfl

/-- Witness for C7: a request without amount for an account that does not exist, sent
while the store answers nothing, gets 400 and stores nothing. -/
theorem makePayment_missing_field_witness :
    (sampleRequest (some "ZZ999") none).payment_amount = none
      ∧ makePayment sampleRuntime (sampleStore []) allDown (sampleRequest (some "ZZ999") none)
          = (.failure 400 "Account number and payment amount are required", sampleStore []) :=
  ⟨rfl, makePayment_missing_field _ _ _ _ (Or.inr rfl)⟩

/-- C8 as stated fails: a request that carries both fields, for the unknown account
`ZZ999` and with the amount 0, is answered with the bad-request failure (400), not
with the not-found failure (404). -/
theorem unknown_account_zero_amount_counterexample :
    (sampleRequest (some "ZZ999") (some 0)).account_number = some "ZZ999"
      ∧ (sampleRequest (some "ZZ999") (some 0)).payment_amount = some 0
      ∧ (∀ c ∈ (sampleStore []).customers, c.account_number ≠ "ZZ999")
      ∧ makePayment sampleRuntime (sampleStore []) allUp (sampleRequest (some "ZZ999") (some 0))
          = (.failure 400 "Account number and payment amount are required", sampleStore []) :=
  ⟨rfl, rfl, sampleStore_lookup_unknown [],
    makePayment_of_falsy (Or.inr (by simp [sampleRequest, truthyNum]))⟩

/-- C8, amended: for a request that carries both fields and whose account number matches
no customer, the result is the not-found failure (404) when the account number is not
the empty text, the amount is not 0 and the lookup query is answered; it is the
bad-request failure (400) when the account number is the empty text or the amount is
0, and the failure 500 when the lookup query is not answered; in every one of these
cases the store is left unchanged. -/
theorem makePayment_unknown_account (rt : Runtime) (db : Store) (avail : Nat → Bool)
    (body : PaymentRequest) (a : String) (q : ℚ)
    (ha : body.account_number = some a) (hq : body.payment_amount = some q)
    (hnone : ∀ c ∈ db.customers, c.account_number ≠ a) :
    (a ≠ "" → q ≠ 0 → avail 0 = true →
        makePayment rt db avail body = (.failure 404 "Account not found", db))
    ∧ (a = "" ∨ q = 0 →
        makePayment rt db avail body
          = (.failure 400 "Account number and payment amount are required", db))
    ∧ (a ≠ "" → q ≠ 0 → avail 0 = false →
        makePayment rt db avail body = (.failure 500 "Error processing payment", db))
    ∧ (makePayment rt db avail body).2 = db := by
  have hfilter : db.customers.filter (fun c => sqlTextEq c.account_number a) = [] := by
    rw [List.filter_eq_nil_iff]
    intro c hc
    simpa [sqlTextEq] using hnone c hc
  have h404 : a ≠ "" → q ≠ 0 → avail 0 = true →
      makePayment rt db avail body = (.failure 404 "Account not found", db) := by
    intro hane hq0 h0
    simp only [makePayment, ha, hq, truthyText_some hane, truthyNum_some hq0, Bool.not_true,
      Bool.or_self, Bool.false_eq_true, if_false, Option.getD_some, runQuery, h0, if_true,
      hfilter]
  have h400 : a = "" ∨ q = 0 →
      makePayment rt db avail body
        = (.failure 400 "Account number and payment amount are required", db) := by
    intro h
    apply makePayment_of_falsy
    rcases h with h | h
    · left; rw [ha, h]; rfl
    · right; rw [hq, h]; simp [truthyNum]
  have h500 : a ≠ "" → q ≠ 0 → avail 0 = false →
      makePayment rt db avail body = (.failure 500 "Error processing payment", db) := by
    intro hane hq0 h0
    simp only [makePayment, ha, hq, truthyText_some hane, truthyNum_some hq0, Bool.not_true,
      Bool.or_self, Bool.false_eq_true, if_false, Option.getD_some, runQuery, h0]
  refine ⟨h404, h400, h500, ?_⟩
  by_cases hane : a = ""
  · rw [h400 (Or.inl hane)]
  · by_cases hq0 : q = 0
    · rw [h400 (Or.inr hq0)]
    · cases h0 : avail 0 with
      | false => rw [h500 hane hq0 h0]
      | true => rw [h404 hane hq0 h0]

/-- Witness for C8, amended: a payment of 3000.00 for the unknown account `ZZ999` gets
404 and stores nothing. -/
theorem makePayment_unknown_account_witness :
    (∀ c ∈ (sampleStore []).customers, c.account_number ≠ "ZZ999")
      ∧ makePayment sampleRuntime (sampleStore []) allUp (sampleRequest (some "ZZ999") (some 3000))
          = (.failure 404 "Account not found", sampleStore []) :=
  ⟨sampleStore_lookup_unknown [],
    (makePayment_unknown_account sampleRuntime (sampleStore []) allUp
      (sampleRequest (some "ZZ999") (some 3000)) "ZZ999" 3000 rfl rfl
      (sampleStore_lookup_unknown [])).1 (by decide) (by norm_num) rfl⟩

/-- C9 as stated fails: a payment of amount 0 for the existing account `AC100` is
rejected with the bad-request failure (400) and nothing is stored. -/
theorem zero_amount_counterexample :
    (sampleStore []).customers.filter (fun c => sqlTextEq c.account_number "AC100")
        = [sampleCustomer]
      ∧ makePayment sampleRuntime (sampleStore []) allUp (sampleRequest (some "AC100") (some 0))
          = (.failure 400 "Account number and payment amount are required", sampleStore []) :=
  ⟨rfl, makePayment_of_falsy (Or.inr (by simp [sampleRequest, truthyNum]))⟩

/-- C9, amended: for a request with a non-empty account number of an existing customer,
a negative `payment_amount` is not rejected by validation: the reply is never the
bad-request failure, and when the date is valid and the store answers and accepts the
timestamp the payment is recorded with that negative amount and the reply is 201;
a `payment_amount` of 0 is rejected with the bad-request failure and nothing is
stored. -/
theorem makePayment_negative_or_zero_amount (rt : Runtime) (db : Store) (avail : Nat → Bool)
    (body : PaymentRequest) (a : String) (q : ℚ) (c : Customer) (t : List Customer)
    (ha : body.account_number = some a) (hane : a ≠ "")
    (hq : body.payment_amount = some q)
    (hc : db.customers.filter (fun c => sqlTextEq c.account_number a) = c :: t) :
    (q < 0 → (makePayment rt db avail body).1.status ≠ 400)
    ∧ (q < 0 → ∀ (text : String) (date : SqlDateTime),
        formattedDate rt body.payment_date = some text → rt.readDateTime text = some date →
        avail 0 = true → avail 1 = true → avail 2 = true →
        (makePayment rt db avail body).1.status = 201
        ∧ (makePayment rt db avail body).2.payments
            = db.payments ++ [{ id := db.nextPaymentId, customer_id := c.id,
                                account_number := a, payment_amount := q,
                                payment_date := date,
                                status := statusOrCompleted body.status }])
    ∧ (q = 0 →
        makePayment rt db avail body
          = (.failure 400 "Account number and payment amount are required", db)) := by
  refine ⟨?_, ?_, ?_⟩
  · intro hneg
    have hq0 : q ≠ 0 := ne_of_lt hneg
    cases h0 : avail 0 with
    | false =>
      simp [makePayment, ha, hq, truthyText_some hane, truthyNum_some hq0, runQuery, h0,
        Reply.status]
    | true =>
      rw [makePayment_of_customer ha hane hq hq0 h0 hc]
      cases hd : formattedDate rt body.payment_date with
      | none => simp [Reply.status]
      | some text =>
        cases h1 : avail 1 with
        | false => simp [runQuery, Reply.status]
        | true =>
          cases hr : rt.readDateTime text with
          | none => simp [runQuery, Reply.status, hr]
          | some date =>
            cases h2 : avail 2 with
            | false => simp [runQuery, Reply.status, hr, h2]
            | true => simp [runQuery, Reply.status, hr, h2]
  · intro hneg text date hdate hread h0 h1 h2
    have hq0 : q ≠ 0 := ne_of_lt hneg
    rw [makePayment_of_customer ha hane hq hq0 h0 hc]
    simp [hdate, runQuery, h1, hread, h2, Reply.status, insertPayment]
  · intro hzero
    apply makePayment_of_falsy
    right
    rw [hq, hzero]
    simp [truthyNum]

/-- Witness for C9, amended: a payment of -50.00 for `AC100` is recorded (201, one row
with amount -50.00). -/
theorem makePayment_negative_or_zero_amount_witness :
    (makePayment sampleRuntime (sampleStore []) allUp
        (sampleRequest (some "AC100") (some (-50)))).1.status = 201
      ∧ (makePayment sampleRuntime (sampleStore []) allUp
          (sampleRequest (some "AC100") (some (-50)))).2.payments
          = [] ++ [{ id := 100, customer_id := 1, account_number := "AC100",
                     payment_amount := -50, payment_date := sampleStamp,
                     status := "completed" }] :=
  (makePayment_negative_or_zero_amount sampleRuntime (sampleStore []) allUp
    (sampleRequest (some "AC100") (some (-50))) "AC100" (-50) sampleCustomer [] rfl
    (by decide) rfl (sampleStore_lookup [])).2.1 (by norm_num) "2024-06-03 10:30:00"
    sampleStamp rfl rfl rfl rfl rfl

/-- C10 as stated fails: a request with both required fields present, for an existing
account and with the store answering every query, whose `payment_date` is no date,
is answered with the failure 500 and no row is stored. -/
theorem invalid_date_counterexample :
    (sampleStore []).customers.filter (fun c => sqlTextEq c.account_number "AC100")
        = [sampleCustomer]
      ∧ invalidDateRequest.account_number = some "AC100"
      ∧ invalidDateRequest.payment_amount = some 3000
      ∧ sampleRuntime.dateParse "not-a-date" = none
      ∧ makePayment sampleRuntime (sampleStore []) allUp invalidDateRequest
          = (.failure 500 "Error processing payment", sampleStore []) := by
  refine ⟨rfl, rfl, rfl, rfl, ?_⟩
  have h := @makePayment_of_customer sampleRuntime (sampleStore []) allUp invalidDateRequest
    "AC100" 3000 sampleCustomer [] rfl (by decide) rfl (by norm_num) rfl (sampleStore_lookup [])
  rw [h]
  rfl

/-- C10, amended: for a request whose account number is a non-empty text that resolves
to a customer, whose amount is not 0 and whose `payment_date` is absent or parses to
a valid date, on a well-formed store that answers all three queries and accepts the
timestamp, the store afterwards holds exactly one more payment row, namely the row
with the store-assigned id, the resolved `customer_id`, the supplied account number
and amount, the normalized timestamp and the status, no other row has changed and the
customers are untouched, and the reply is 201 with `payment` equal to that stored
row. -/
theorem makePayment_valid (rt : Runtime) (db : Store) (avail : Nat → Bool)
    (body : PaymentRequest) (a : String) (q : ℚ) (c : Customer) (t : List Customer)
    (text : String) (date : SqlDateTime) (hwf : db.WF)
    (ha : body.account_number = some a) (hane : a ≠ "")
    (hq : body.payment_amount = some q) (hq0 : q ≠ 0)
    (hc : db.customers.filter (fun c => sqlTextEq c.account_number a) = c :: t)
    (hdate : formattedDate rt body.payment_date = some text)
    (hread : rt.readDateTime text = some date)
    (h0 : avail 0 = true) (h1 : avail 1 = true) (h2 : avail 2 = true) :
    ∃ row : Payment,
      row = { id := db.nextPaymentId, customer_id := c.id, account_number := a,
              payment_amount := q, payment_date := date,
              status := statusOrCompleted body.status }
      ∧ makePayment rt db avail body
          = (.json 201 { message := "Payment successful", payment := some row },
             { customers := db.customers, payments := db.payments ++ [row],
               nextPaymentId := db.nextPaymentId + 1 })
      ∧ (makePayment rt db avail body).2.payments.length = db.payments.length + 1
      ∧ row ∈ (makePayment rt db avail body).2.payments
      ∧ row ∉ db.payments := by
  refine ⟨_, rfl, ?_⟩
  have hmk : makePayment rt db avail body
      = (.json 201 { message := "Payment successful",
                     payment := some { id := db.nextPaymentId, customer_id := c.id,
                                       account_number := a, payment_amount := q,
                                       payment_date := date,
                                       status := statusOrCompleted body.status } },
         { customers := db.customers,
           payments := db.payments ++ [{ id := db.nextPaymentId, customer_id := c.id,
                                         account_number := a, payment_amount := q,
                                         payment_date := date,
                                         status := statusOrCompleted body.status }],
           nextPaymentId := db.nextPaymentId + 1 }) := by
    rw [makePayment_of_customer ha hane hq hq0 h0 hc]
    simp only [hdate, runQuery, h1, if_true, hread, h2,
      readBack_insertPayment hwf c.id a q date (statusOrCompleted body.status), List.head?_cons]
    rfl
  refine ⟨hmk, ?_, ?_, ?_⟩
  · rw [hmk]; simp
  · rw [hmk]; simp
  · intro hmem
    exact Nat.lt_irrefl _ (hwf _ hmem)

/-- Witness for C10, amended: a payment of 3000.00 for `AC100`, dated 2024-06-03T10:30:00.000Z,
on a store that already holds one payment, is stored as row 100 and returned. -/
theorem makePayment_valid_witness :
    (sampleStore [samplePayment 1 2000 "completed"]).WF
      ∧ ∃ row : Payment,
        row = { id := 100, customer_id := 1, account_number := "AC100",
                payment_amount := 3000, payment_date := sampleStamp,
                status := statusOrCompleted none }
        ∧ makePayment sampleRuntime (sampleStore [samplePayment 1 2000 "completed"]) allUp
              (sampleRequest (some "AC100") (some 3000))
            = (.json 201 { message := "Payment successful", payment := some row },
               { customers := [sampleCustomer],
                 payments := [samplePayment 1 2000 "completed"] ++ [row],
                 nextPaymentId := 100 + 1 })
        ∧ (makePayment sampleRuntime (sampleStore [samplePayment 1 2000 "completed"]) allUp
              (sampleRequest (some "AC100") (some 3000))).2.payments.length
            = [samplePayment 1 2000 "completed"].length + 1
        ∧ row ∈ (makePayment sampleRuntime (sampleStore [samplePayment 1 2000 "completed"])
              allUp (sampleRequest (some "AC100") (some 3000))).2.payments
        ∧ row ∉ [samplePayment 1 2000 "completed"] :=
  have hwf : (sampleStore [samplePayment 1 2000 "completed"]).WF := by
    intro p hp
    simp only [sampleStore, List.mem_singleton] at hp
    subst hp
    decide
  ⟨hwf,
    makePayment_valid sampleRuntime (sampleStore [samplePayment 1 2000 "completed"]) allUp
      (sampleRequest (some "AC100") (some 3000)) "AC100" 3000 sampleCustomer []
      "2024-06-03 10:30:00" sampleStamp hwf rfl (by decide) rfl (by norm_num)
      (sampleStore_lookup _) rfl rfl rfl rfl rfl⟩

/-! ## Payment history: auxiliary facts -/

theorem sqlDateTime_le_total (a b : SqlDateTime) :
    SqlDateTime.le a b = true ∨ SqlDateTime.le b a = true := by
  unfold SqlDateTime.le
  simp only [decide_eq_true_eq]
  exact le_total _ _

theorem sqlDateTime_le_trans {a b c : SqlDateTime} (h₁ : SqlDateTime.le a b = true)
    (h₂ : SqlDateTime.le b c = true) : SqlDateTime.le a c = true := by
  unfold SqlDateTime.le at *
  simp only [decide_eq_true_eq] at *
  exact le_trans h₁ h₂

/-- The rows `ORDER BY payment_date DESC` produces are newest first. -/
theorem newestFirst_insertionSort (rows : List Payment) :
    NewestFirst (rows.insertionSort
      (fun a b => SqlDateTime.le b.payment_date a.payment_date)) := by
  haveI : IsTotal Payment (fun a b => SqlDateTime.le b.payment_date a.payment_date = true) :=
    ⟨fun a b => sqlDateTime_le_total b.payment_date a.payment_date⟩
  haveI : IsTrans Payment (fun a b => SqlDateTime.le b.payment_date a.payment_date = true) :=
    ⟨fun _ _ _ h₁ h₂ => sqlDateTime_le_trans h₂ h₁⟩
  exact List.sorted_insertionSort
    (fun a b => SqlDateTime.le b.payment_date a.payment_date = true) rows

theorem getPaymentHistory_up {db : Store} {avail : Nat → Bool} (accountNumber : String)
    (h0 : avail 0 = true) :
    getPaymentHistory db avail accountNumber = .json 200
      ((db.payments.filter (fun p => sqlTextEq p.account_number accountNumber)).insertionSort
        (fun a b => SqlDateTime.le b.payment_date a.payment_date)) := by
  simp only [getPaymentHistory, runQuery, h0, if_true]

/-- Two different members of a list occur in it in one order or the other. -/
theorem sublist_pair_of_mem {α : Type} {a b : α} :
    ∀ {l : List α}, a ∈ l → b ∈ l → a ≠ b → List.Sublist [a, b] l ∨ List.Sublist [b, a] l
  | [], ha, _, _ => absurd ha (List.not_mem_nil _)
  | x :: xs, ha, hb, hne => by
    rcases List.mem_cons.mp ha with rfl | ha'
    · rcases List.mem_cons.mp hb with rfl | hb'
      · exact absurd rfl hne
      · exact Or.inl (List.Sublist.cons₂ _ (List.singleton_sublist.mpr hb'))
    · rcases List.mem_cons.mp hb with rfl | hb'
      · exact Or.inr (List.Sublist.cons₂ _ (List.singleton_sublist.mpr ha'))
      · rcases sublist_pair_of_mem ha' hb' hne with h | h
        · exact Or.inl (List.Sublist.cons _ h)
        · exact Or.inr (List.Sublist.cons _ h)

/-- In a newest-first list a row stands before every row with an earlier date. -/
theorem newestFirst_before {rows : List Payment} (hs : NewestFirst rows) {row p : Payment}
    (hrow : row ∈ rows) (hp : p ∈ rows)
    (hlt : SqlDateTime.lt p.payment_date row.payment_date = true) :
    List.Sublist [row, p] rows := by
  have hnle : SqlDateTime.le row.payment_date p.payment_date = false := by
    simpa [SqlDateTime.lt] using hlt
  have hne : row ≠ p := by
    rintro rfl
    rcases sqlDateTime_le_total row.payment_date row.payment_date with h | h <;>
      rw [hnle] at h <;> cases h
  rcases sublist_pair_of_mem hrow hp hne with h | h
  · exact h
  · have := List.pairwise_iff_forall_sublist.mp hs h
    rw [hnle] at this
    cases this

theorem historyStore_history :
    getPaymentHistory historyStore allUp "AC100"
      = .json 200 [samplePaymentOn 3 20, samplePaymentOn 1 3] := by
  rfl

/-! ## Payment history: the claims -/

/-- C12: when the store answers, `getPaymentHistory` replies with success (200) and a
sequence that holds exactly the payment rows whose `account_number` equals the given
one, each as often as the store holds it, sorted by `payment_date` in descending
order; the sequence is empty, still with success, when no such row exists. -/
theorem getPaymentHistory_spec (db : Store) (avail : Nat → Bool) (accountNumber : String)
    (h0 : avail 0 = true) :
    ∃ rows, getPaymentHistory db avail accountNumber = .json 200 rows
      ∧ rows.Perm (db.payments.filter (fun p => decide (p.account_number = accountNumber)))
      ∧ (∀ p, p ∈ rows ↔ p ∈ db.payments ∧ p.account_number = accountNumber)
      ∧ NewestFirst rows
      ∧ ((∀ p ∈ db.payments, p.account_number ≠ accountNumber) → rows = []) := by
  have hfilter : db.payments.filter (fun p => sqlTextEq p.account_number accountNumber)
      = db.payments.filter (fun p => decide (p.account_number = accountNumber)) := by
    apply List.filter_congr
    intro p _
    rw [Bool.eq_iff_iff, sqlTextEq, beq_iff_eq, decide_eq_true_iff]
  refine ⟨_, getPaymentHistory_up accountNumber h0, ?_, ?_, newestFirst_insertionSort _, ?_⟩
  · rw [hfilter]
    exact List.perm_insertionSort _ _
  · intro p
    rw [List.mem_insertionSort, hfilter, List.mem_filter]
    simp
  · intro hnone
    have hnil : db.payments.filter (fun p => sqlTextEq p.account_number accountNumber) = [] := by
      rw [hfilter, List.filter_eq_nil_iff]
      intro p hp
      simpa using hnone p hp
    rw [hnil]
    rfl

/-- Witness for C12: the history of `AC100` on a store with three payments is the two
rows of `AC100`, the one of 20 June before the one of 3 June. -/
theorem getPaymentHistory_spec_witness :
    getPaymentHistory historyStore allUp "AC100"
        = .json 200 [samplePaymentOn 3 20, samplePaymentOn 1 3]
      ∧ ∃ rows, getPaymentHistory historyStore allUp "AC100" = .json 200 rows
        ∧ rows.Perm (historyStore.payments.filter (fun p => decide (p.account_number = "AC100")))
        ∧ (∀ p, p ∈ rows ↔ p ∈ historyStore.payments ∧ p.account_number = "AC100")
        ∧ NewestFirst rows
        ∧ ((∀ p ∈ historyStore.payments, p.account_number ≠ "AC100") → rows = []) :=
  ⟨historyStore_history, getPaymentHistory_spec historyStore allUp "AC100" rfl⟩

/-- The success path of `makePayment` in full: the reply and the store it leaves. -/
theorem makePayment_ok {rt : Runtime} {db : Store} {avail : Nat → Bool}
    {body : PaymentRequest} {a : String} {q : ℚ} {c : Customer} {t : List Customer}
    {text : String} {date : SqlDateTime} (hwf : db.WF)
    (ha : body.account_number = some a) (hane : a ≠ "")
    (hq : body.payment_amount = some q) (hq0 : q ≠ 0)
    (hc : db.customers.filter (fun c => sqlTextEq c.account_number a) = c :: t)
    (hdate : formattedDate rt body.payment_date = some text)
    (hread : rt.readDateTime text = some date)
    (h0 : avail 0 = true) (h1 : avail 1 = true) (h2 : avail 2 = true) :
    makePayment rt db avail body
      = (.json 201 { message := "Payment successful",
                     payment := some { id := db.nextPaymentId, customer_id := c.id,
                                       account_number := a, payment_amount := q,
                                       payment_date := date,
                                       status := statusOrCompleted body.status } },
         { customers := db.customers,
           payments := db.payments ++ [{ id := db.nextPaymentId, customer_id := c.id,
                                         account_number := a, payment_amount := q,
                                         payment_date := date,
                                         status := statusOrCompleted body.status }],
           nextPaymentId := db.nextPaymentId + 1 }) := by
  rw [makePayment_of_customer ha hane hq hq0 h0 hc]
  simp only [hdate, runQuery, h1, if_true, hread, h2,
    readBack_insertPayment hwf c.id a q date (statusOrCompleted body.status), List.head?_cons]
  rfl

theorem historyStore_wf : historyStore.WF := by
  intro p hp
  simp only [historyStore, List.mem_cons, List.mem_singleton, List.not_mem_nil, or_false] at hp
  rcases hp with rfl | rfl | rfl <;> decide

/-- C11: after a valid `makePayment` request for account `a`, a `getPaymentHistory` for
`a` on the resulting store replies with a sequence that contains the payment
`makePayment` returned, and that payment stands before every payment of the sequence
with an earlier `payment_date`. -/
theorem history_after_payment (rt : Runtime) (db : Store) (avail avail' : Nat → Bool)
    (body : PaymentRequest) (a : String) (q : ℚ) (c : Customer) (t : List Customer)
    (text : String) (date : SqlDateTime) (hwf : db.WF)
    (ha : body.account_number = some a) (hane : a ≠ "")
    (hq : body.payment_amount = some q) (hq0 : q ≠ 0)
    (hc : db.customers.filter (fun c => sqlTextEq c.account_number a) = c :: t)
    (hdate : formattedDate rt body.payment_date = some text)
    (hread : rt.readDateTime text = some date)
    (h0 : avail 0 = true) (h1 : avail 1 = true) (h2 : avail 2 = true)
    (hh : avail' 0 = true) :
    ∃ (row : Payment) (rows : List Payment),
      (makePayment rt db avail body).1
          = .json 201 { message := "Payment successful", payment := some row }
      ∧ getPaymentHistory (makePayment rt db avail body).2 avail' a = .json 200 rows
      ∧ row ∈ rows
      ∧ ∀ p ∈ rows, SqlDateTime.lt p.payment_date row.payment_date = true →
          List.Sublist [row, p] rows := by
  rw [makePayment_ok hwf ha hane hq hq0 hc hdate hread h0 h1 h2]
  refine ⟨_, _, rfl, getPaymentHistory_up a hh, ?_, ?_⟩
  · rw [List.mem_insertionSort, List.mem_filter]
    refine ⟨List.mem_append_right _ (List.mem_singleton_self _), ?_⟩
    simp [sqlTextEq]
  · intro p hp hlt
    refine newestFirst_before (newestFirst_insertionSort _) ?_ hp hlt
    rw [List.mem_insertionSort, List.mem_filter]
    refine ⟨List.mem_append_right _ (List.mem_singleton_self _), ?_⟩
    simp [sqlTextEq]

/-- Witness for C11: a payment for `AC100` dated 3 June 10:30 on a store that holds
payments of 3 June 09:00 and of 20 June appears in the history of `AC100`, before
the payment of 3 June 09:00. -/
theorem history_after_payment_witness :
    historyStore.WF
      ∧ ∃ (row : Payment) (rows : List Payment),
        (makePayment sampleRuntime historyStore allUp
            (sampleRequest (some "AC100") (some 3000))).1
          = .json 201 { message := "Payment successful", payment := some row }
        ∧ getPaymentHistory (makePayment sampleRuntime historyStore allUp
            (sampleRequest (some "AC100") (some 3000))).2 allUp "AC100" = .json 200 rows
        ∧ row ∈ rows
        ∧ ∀ p ∈ rows, SqlDateTime.lt p.payment_date row.payment_date = true →
            List.Sublist [row, p] rows :=
  ⟨historyStore_wf,
    history_after_payment sampleRuntime historyStore allUp allUp
      (sampleRequest (some "AC100") (some 3000)) "AC100" 3000 sampleCustomer []
      "2024-06-03 10:30:00" sampleStamp historyStore_wf rfl (by decide) rfl (by norm_num)
      rfl rfl rfl rfl rfl rfl rfl⟩

/-! ## Payment recording: every path of `makePayment` -/

/-- Every run of `makePayment` either leaves the store as it was and replies with one
of the three failures, or has inserted one row for a customer found under the row's
account number; in the second case the reply is 500 when the read-back was not
answered and 201 when it was. -/
theorem makePayment_cases (rt : Runtime) (db : Store) (avail : Nat → Bool)
    (body : PaymentRequest) :
    ((makePayment rt db avail body).2 = db
      ∧ ((makePayment rt db avail body).1
            = .failure 400 "Account number and payment amount are required"
        ∨ (makePayment rt db avail body).1 = .failure 404 "Account not found"
        ∨ (makePayment rt db avail body).1 = .failure 500 "Error processing payment"))
    ∨ ∃ (row : Payment) (c : Customer),
        c ∈ db.customers ∧ row.customer_id = c.id ∧ c.account_number = row.account_number
        ∧ row.id = db.nextPaymentId
        ∧ row.status = statusOrCompleted body.status
        ∧ avail 0 = true ∧ avail 1 = true
        ∧ (makePayment rt db avail body).2
            = { customers := db.customers, payments := db.payments ++ [row],
                nextPaymentId := db.nextPaymentId + 1 }
        ∧ ((avail 2 = false
              ∧ (makePayment rt db avail body).1 = .failure 500 "Error processing payment")
          ∨ (avail 2 = true
              ∧ ∃ payment, (makePayment rt db avail body).1
                  = .json 201 { message := "Payment successful", payment := payment })) := by
  by_cases hfalsy : truthyText body.account_number = false ∨ truthyNum body.payment_amount = false
  · left
    rw [makePayment_of_falsy hfalsy]
    exact ⟨rfl, Or.inl rfl⟩
  · have hacct : truthyText body.account_number = true := by
      cases h : truthyText body.account_number
      · exact absurd (Or.inl h) hfalsy
      · rfl
    have hamt : truthyNum body.payment_amount = true := by
      cases h : truthyNum body.payment_amount
      · exact absurd (Or.inr h) hfalsy
      · rfl
    obtain ⟨a, ha, hane⟩ : ∃ a, body.account_number = some a ∧ a ≠ "" := by
      cases h : body.account_number with
      | none => rw [h] at hacct; cases hacct
      | some a =>
        refine ⟨a, rfl, ?_⟩
        rw [h] at hacct
        simpa [truthyText] using hacct
    obtain ⟨q, hq, hq0⟩ : ∃ q, body.payment_amount = some q ∧ q ≠ 0 := by
      cases h : body.payment_amount with
      | none => rw [h] at hamt; cases hamt
      | some q =>
        refine ⟨q, rfl, ?_⟩
        rw [h] at hamt
        simpa [truthyNum] using hamt
    cases h0 : avail 0 with
    | false =>
      left
      simp [makePayment, ha, hq, truthyText_some hane, truthyNum_some hq0, runQuery, h0]
    | true =>
      cases hc : db.customers.filter (fun c => sqlTextEq c.account_number a) with
      | nil =>
        left
        simp [makePayment, ha, hq, truthyText_some hane, truthyNum_some hq0, runQuery, h0, hc]
      | cons c t =>
        have hcmem : c ∈ db.customers.filter (fun c => sqlTextEq c.account_number a) := by
          rw [hc]; exact List.mem_cons_self _ _
        rw [List.mem_filter] at hcmem
        have hcacct : c.account_number = a := by simpa [sqlTextEq] using hcmem.2
        rw [makePayment_of_customer ha hane hq hq0 h0 hc]
        cases hd : formattedDate rt body.payment_date with
        | none => left; simp
        | some text =>
          cases h1 : avail 1 with
          | false => left; simp [runQuery]
          | true =>
            cases hr : rt.readDateTime text with
            | none => left; simp [runQuery, hr]
            | some date =>
              right
              refine ⟨{ id := db.nextPaymentId, customer_id := c.id, account_number := a,
                        payment_amount := q, payment_date := date,
                        status := statusOrCompleted body.status }, c, hcmem.1, rfl, hcacct,
                rfl, rfl, rfl, rfl, ?_⟩
              cases h2 : avail 2 with
              | false => simp [runQuery, hr, insertPayment]
              | true => simp [runQuery, hr, insertPayment]

theorem statusOrCompleted_none : statusOrCompleted none = "completed" := rfl

theorem statusOrCompleted_empty : statusOrCompleted (some "") = "completed" := rfl

theorem statusOrCompleted_some {s : String} (hs : s ≠ "") : statusOrCompleted (some s) = s := by
  simp [statusOrCompleted, truthyText, hs]

/-- The sample request with a status field on the empty sample store, store up. -/
theorem sampleRequestWithStatus_reply (status : Option String) :
    makePayment sampleRuntime (sampleStore []) allUp (sampleRequestWithStatus status)
      = (.json 201 { message := "Payment successful",
                     payment := some (sampleNewRow (statusOrCompleted status)) },
         { customers := [sampleCustomer],
           payments := [] ++ [sampleNewRow (statusOrCompleted status)],
           nextPaymentId := 100 + 1 }) :=
  makePayment_ok (c := sampleCustomer) (t := []) (fun _ hp => nomatch hp) rfl (by decide) rfl
    (by norm_num) rfl rfl rfl rfl rfl rfl

/-! ## Payment recording: status, failures and references -/

/-- C13 as stated fails: a valid request that supplies the empty string as status is
stored with status "completed", not with the supplied string. -/
theorem empty_status_counterexample :
    (sampleRequestWithStatus (some "")).status = some ""
      ∧ (makePayment sampleRuntime (sampleStore []) allUp
          (sampleRequestWithStatus (some ""))).2.payments = [sampleNewRow "completed"]
      ∧ (sampleNewRow "completed").status ≠ "" := by
  refine ⟨rfl, ?_, by decide⟩
  rw [sampleRequestWithStatus_reply]
  rfl

/-- C13, amended: for a valid request the status stored on the new payment is
"completed" when the request supplies no status or the empty string, and is otherwise
exactly the supplied string, whatever it is. -/
theorem stored_status (rt : Runtime) (db : Store) (avail : Nat → Bool)
    (body : PaymentRequest) (a : String) (q : ℚ) (c : Customer) (t : List Customer)
    (text : String) (date : SqlDateTime) (hwf : db.WF)
    (ha : body.account_number = some a) (hane : a ≠ "")
    (hq : body.payment_amount = some q) (hq0 : q ≠ 0)
    (hc : db.customers.filter (fun c => sqlTextEq c.account_number a) = c :: t)
    (hdate : formattedDate rt body.payment_date = some text)
    (hread : rt.readDateTime text = some date)
    (h0 : avail 0 = true) (h1 : avail 1 = true) (h2 : avail 2 = true) :
    ∃ row : Payment,
      (makePayment rt db avail body).2.payments = db.payments ++ [row]
      ∧ (makePayment rt db avail body).1
          = .json 201 { message := "Payment successful", payment := some row }
      ∧ (body.status = none → row.status = "completed")
      ∧ (body.status = some "" → row.status = "completed")
      ∧ (∀ s, body.status = some s → s ≠ "" → row.status = s) := by
  rw [makePayment_ok hwf ha hane hq hq0 hc hdate hread h0 h1 h2]
  refine ⟨_, rfl, rfl, ?_, ?_, ?_⟩
  · intro hs
    show statusOrCompleted body.status = "completed"
    rw [hs, statusOrCompleted_none]
  · intro hs
    show statusOrCompleted body.status = "completed"
    rw [hs, statusOrCompleted_empty]
  · intro s hs hne
    show statusOrCompleted body.status = s
    rw [hs, statusOrCompleted_some hne]

/-- Witness for C13, amended: the status "on-hold", which is no value of any
enumeration, is stored as given. -/
theorem stored_status_witness :
    ∃ row : Payment,
      (makePayment sampleRuntime (sampleStore []) allUp
          (sampleRequestWithStatus (some "on-hold"))).2.payments = [] ++ [row]
      ∧ (makePayment sampleRuntime (sampleStore []) allUp
          (sampleRequestWithStatus (some "on-hold"))).1
          = .json 201 { message := "Payment successful", payment := some row }
      ∧ row.status = "on-hold" :=
  have h := stored_status sampleRuntime (sampleStore []) allUp
    (sampleRequestWithStatus (some "on-hold")) "AC100" 3000 sampleCustomer []
    "2024-06-03 10:30:00" sampleStamp (fun _ hp => nomatch hp) rfl (by decide) rfl
    (by norm_num) rfl rfl rfl rfl rfl rfl
  h.elim fun row hrow =>
    ⟨row, hrow.1, hrow.2.1, hrow.2.2.2.2 "on-hold" rfl (by decide)⟩

/-- C14 as stated fails: when the store answers the lookup and the insert but not the
read-back, `makePayment` reports the failure 500 and the payment row is stored. -/
theorem read_back_failure_counterexample :
    makePayment sampleRuntime (sampleStore []) readBackDown (sampleRequestWithStatus none)
      = (.failure 500 "Error processing payment",
         { customers := [sampleCustomer], payments := [sampleNewRow "completed"],
           nextPaymentId := 101 })
      ∧ (sampleStore []).payments = [] := by
  refine ⟨?_, rfl⟩
  have h := @makePayment_of_customer sampleRuntime (sampleStore []) readBackDown
    (sampleRequestWithStatus none) "AC100" 3000 sampleCustomer [] rfl (by decide) rfl
    (by norm_num) rfl (sampleStore_lookup [])
  rw [h]
  rfl

/-- Every run of `makePayment` in full: either the store is left as it was and the
reply is one of the three failures, or the request passed validation, the lookup was
answered with a customer, the date was valid, the insert was answered and accepted the
timestamp, and the store holds the inserted row; the reply is then 500 when the
read-back was not answered and 201 when it was. -/
theorem makePayment_paths (rt : Runtime) (db : Store) (avail : Nat → Bool)
    (body : PaymentRequest) :
    ((makePayment rt db avail body).2 = db
      ∧ ((makePayment rt db avail body).1
            = .failure 400 "Account number and payment amount are required"
        ∨ (makePayment rt db avail body).1 = .failure 404 "Account not found"
        ∨ (makePayment rt db avail body).1 = .failure 500 "Error processing payment"))
    ∨ ∃ (a : String) (q : ℚ) (c : Customer) (t : List Customer) (text : String)
        (date : SqlDateTime),
        body.account_number = some a ∧ a ≠ "" ∧ body.payment_amount = some q ∧ q ≠ 0
        ∧ avail 0 = true
        ∧ db.customers.filter (fun c => sqlTextEq c.account_number a) = c :: t
        ∧ formattedDate rt body.payment_date = some text
        ∧ avail 1 = true ∧ rt.readDateTime text = some date
        ∧ (makePayment rt db avail body).2
            = { customers := db.customers,
                payments := db.payments ++ [{ id := db.nextPaymentId, customer_id := c.id,
                                              account_number := a, payment_amount := q,
                                              payment_date := date,
                                              status := statusOrCompleted body.status }],
                nextPaymentId := db.nextPaymentId + 1 }
        ∧ ((avail 2 = false
              ∧ (makePayment rt db avail body).1 = .failure 500 "Error processing payment")
          ∨ (avail 2 = true
              ∧ ∃ payment, (makePayment rt db avail body).1
                  = .json 201 { message := "Payment successful", payment := payment })) := by
  by_cases hfalsy : truthyText body.account_number = false ∨ truthyNum body.payment_amount = false
  · left
    rw [makePayment_of_falsy hfalsy]
    exact ⟨rfl, Or.inl rfl⟩
  · have hacct : truthyText body.account_number = true := by
      cases h : truthyText body.account_number
      · exact absurd (Or.inl h) hfalsy
      · rfl
    have hamt : truthyNum body.payment_amount = true := by
      cases h : truthyNum body.payment_amount
      · exact absurd (Or.inr h) hfalsy
      · rfl
    obtain ⟨a, ha, hane⟩ : ∃ a, body.account_number = some a ∧ a ≠ "" := by
      cases h : body.account_number with
      | none => rw [h] at hacct; cases hacct
      | some a =>
        refine ⟨a, rfl, ?_⟩
        rw [h] at hacct
        simpa [truthyText] using hacct
    obtain ⟨q, hq, hq0⟩ : ∃ q, body.payment_amount = some q ∧ q ≠ 0 := by
      cases h : body.payment_amount with
      | none => rw [h] at hamt; cases hamt
      | some q =>
        refine ⟨q, rfl, ?_⟩
        rw [h] at hamt
        simpa [truthyNum] using hamt
    cases h0 : avail 0 with
    | false =>
      left
      simp [makePayment, ha, hq, truthyText_some hane, truthyNum_some hq0, runQuery, h0]
    | true =>
      cases hc : db.customers.filter (fun c => sqlTextEq c.account_number a) with
      | nil =>
        left
        simp [makePayment, ha, hq, truthyText_some hane, truthyNum_some hq0, runQuery, h0, hc]
      | cons c t =>
        rw [makePayment_of_customer ha hane hq hq0 h0 hc]
        cases hd : formattedDate rt body.payment_date with
        | none => left; simp
        | some text =>
          cases h1 : avail 1 with
          | false => left; simp [runQuery]
          | true =>
            cases hr : rt.readDateTime text with
            | none => left; simp [runQuery, hr]
            | some date =>
              right
              refine ⟨a, q, c, t, text, date, ha, hane, hq, hq0, rfl, hc, rfl, rfl, hr, ?_⟩
              cases h2 : avail 2 with
              | false => simp [runQuery, hr, insertPayment]
              | true => simp [runQuery, hr, insertPayment]

/-- C14, amended: a bad-request or not-found failure never changes the store; nor does
any failure when the lookup or the insert query is not answered, when the date is
invalid, when the store rejects the timestamp, or when the read-back query is
answered. A failure leaves a changed store in one case only: the request was valid
(non-empty account number of an existing customer, non-zero amount, valid date), the
lookup and the insert were answered, the read-back was not, the reply is the failure
500, and the store holds exactly the one inserted row more. A success reply always
comes with exactly one row more. -/
theorem makePayment_failure_store (rt : Runtime) (db : Store) (avail : Nat → Bool)
    (body : PaymentRequest) :
    ((makePayment rt db avail body).1.status = 400
        ∨ (makePayment rt db avail body).1.status = 404 →
      (makePayment rt db avail body).2 = db)
    ∧ (avail 0 = false ∨ avail 1 = false → (makePayment rt db avail body).2 = db)
    ∧ (formattedDate rt body.payment_date = none → (makePayment rt db avail body).2 = db)
    ∧ ((∀ text, formattedDate rt body.payment_date = some text → rt.readDateTime text = none) →
        (makePayment rt db avail body).2 = db)
    ∧ ((makePayment rt db avail body).1.status ≠ 201 → avail 2 = true →
        (makePayment rt db avail body).2 = db)
    ∧ ((makePayment rt db avail body).1.status ≠ 201 →
        (makePayment rt db avail body).2 ≠ db →
        (makePayment rt db avail body).1 = .failure 500 "Error processing payment"
        ∧ avail 0 = true ∧ avail 1 = true ∧ avail 2 = false
        ∧ ∃ (a : String) (q : ℚ) (c : Customer) (t : List Customer) (text : String)
            (date : SqlDateTime),
            body.account_number = some a ∧ a ≠ "" ∧ body.payment_amount = some q ∧ q ≠ 0
            ∧ db.customers.filter (fun c => sqlTextEq c.account_number a) = c :: t
            ∧ formattedDate rt body.payment_date = some text
            ∧ rt.readDateTime text = some date
            ∧ (makePayment rt db avail body).2
                = { customers := db.customers,
                    payments := db.payments
                      ++ [{ id := db.nextPaymentId, customer_id := c.id, account_number := a,
                            payment_amount := q, payment_date := date,
                            status := statusOrCompleted body.status }],
                    nextPaymentId := db.nextPaymentId + 1 })
    ∧ ((makePayment rt db avail body).1.status = 201 →
        ∃ row, (makePayment rt db avail body).2
          = { customers := db.customers, payments := db.payments ++ [row],
              nextPaymentId := db.nextPaymentId + 1 }) := by
  rcases makePayment_paths rt db avail body with
    ⟨hdb, hrep⟩ | ⟨a, q, c, t, text, date, ha, hane, hq, hq0, h0, hc, hd, h1, hr, hdb, hrep⟩
  · refine ⟨fun _ => hdb, fun _ => hdb, fun _ => hdb, fun _ => hdb, fun _ _ => hdb,
      fun _ hne => absurd hdb hne, ?_⟩
    intro h201
    rcases hrep with h | h | h <;> rw [h] at h201 <;> simp [Reply.status] at h201
  · have hnot400 : ¬ ((makePayment rt db avail body).1.status = 400
        ∨ (makePayment rt db avail body).1.status = 404) := by
      rcases hrep with ⟨_, hrep⟩ | ⟨_, payment, hrep⟩ <;> rw [hrep] <;> simp [Reply.status]
    refine ⟨fun h => absurd h hnot400, ?_, ?_, ?_, ?_, ?_, fun _ => ⟨_, hdb⟩⟩
    · rintro (h | h)
      · rw [h0] at h; cases h
      · rw [h1] at h; cases h
    · intro h
      rw [hd] at h
      cases h
    · intro h
      have := h text hd
      rw [hr] at this
      cases this
    · intro hfail h2
      rcases hrep with ⟨h2', _⟩ | ⟨_, payment, hrep⟩
      · rw [h2] at h2'; cases h2'
      · rw [hrep] at hfail
        exact absurd rfl hfail
    · intro hfail _
      rcases hrep with ⟨h2, hrep⟩ | ⟨_, payment, hrep⟩
      · exact ⟨hrep, h0, h1, h2, a, q, c, t, text, date, ha, hane, hq, hq0, hc, hd, hr, hdb⟩
      · rw [hrep] at hfail
        exact absurd rfl hfail

/-- C15: if every payment row references an existing customer before a `makePayment`
call, the same holds after it, whatever the request and the outcome; and when the
call has inserted a row, that row's `customer_id` is the id of a customer whose
`account_number` equals the `account_number` stored on the row. -/
theorem makePayment_preserves_references (rt : Runtime) (db : Store) (avail : Nat → Bool)
    (body : PaymentRequest)
    (hinv : ∀ p ∈ db.payments, ∃ c ∈ db.customers, c.id = p.customer_id) :
    (∀ p ∈ (makePayment rt db avail body).2.payments,
        ∃ c ∈ (makePayment rt db avail body).2.customers, c.id = p.customer_id)
    ∧ ((makePayment rt db avail body).2 = db
        ∨ ∃ (row : Payment) (c : Customer),
            (makePayment rt db avail body).2.payments = db.payments ++ [row]
            ∧ (makePayment rt db avail body).2.customers = db.customers
            ∧ c ∈ db.customers ∧ row.customer_id = c.id
            ∧ c.account_number = row.account_number) := by
  rcases makePayment_cases rt db avail body with ⟨hdb, _⟩ | ⟨row, c, hc, hid, hacct, _, _, _, _, hdb, _⟩
  · rw [hdb]
    exact ⟨hinv, Or.inl rfl⟩
  · rw [hdb]
    refine ⟨?_, Or.inr ⟨row, c, rfl, rfl, hc, hid, hacct⟩⟩
    intro p hp
    rcases List.mem_append.mp hp with hp | hp
    · exact hinv p hp
    · rw [List.mem_singleton] at hp
      subst hp
      exact ⟨c, hc, hid.symm⟩

/-- Witness for C15: a payment for `AC100` on a store whose one payment references
customer 1 leaves a store in which both rows reference customer 1. -/
theorem makePayment_preserves_references_witness :
    (∀ p ∈ (sampleStore [samplePayment 1 2000 "completed"]).payments,
        ∃ c ∈ (sampleStore [samplePayment 1 2000 "completed"]).customers, c.id = p.customer_id)
      ∧ (∀ p ∈ (makePayment sampleRuntime (sampleStore [samplePayment 1 2000 "completed"])
            allUp (sampleRequestWithStatus none)).2.payments,
          ∃ c ∈ (makePayment sampleRuntime (sampleStore [samplePayment 1 2000 "completed"])
            allUp (sampleRequestWithStatus none)).2.customers, c.id = p.customer_id) :=
  have hinv : ∀ p ∈ (sampleStore [samplePayment 1 2000 "completed"]).payments,
      ∃ c ∈ (sampleStore [samplePayment 1 2000 "completed"]).customers,
        c.id = p.customer_id := by
    intro p hp
    simp only [sampleStore, List.mem_singleton] at hp
    subst hp
    exact ⟨sampleCustomer, List.mem_singleton_self _, rfl⟩
  ⟨hinv, (makePayment_preserves_references sampleRuntime _ allUp _ hinv).1⟩

/-! ## Ledger query: the two lookups and the listing -/

theorem filter_head_of_unique {α : Type} (f : α → Bool) {l : List α} {c : α} (hc : c ∈ l)
    (hfc : f c = true) (huniq : ∀ c' ∈ l, f c' = true → c' = c) :
    ∃ t, l.filter f = c :: t := by
  have hmem : c ∈ l.filter f := List.mem_filter.mpr ⟨hc, hfc⟩
  cases hfl : l.filter f with
  | nil => rw [hfl] at hmem; cases hmem
  | cons x t =>
    have hx : x ∈ l.filter f := by rw [hfl]; exact List.mem_cons_self _ _
    rw [List.mem_filter] at hx
    exact ⟨t, by rw [huniq x hx.1 hx.2]⟩

theorem getCustomerById_found {db : Store} {avail : Nat → Bool} {id : Nat} {c : Customer}
    {t : List Customer} (h0 : avail 0 = true)
    (hc : db.customers.filter (fun c => c.id == id) = c :: t) :
    getCustomerById db id avail = .json 200 c := by
  simp only [getCustomerById, runQuery, h0, if_true, hc]

theorem getCustomerById_missing {db : Store} {avail : Nat → Bool} {id : Nat}
    (h0 : avail 0 = true) (hnone : ∀ c ∈ db.customers, c.id ≠ id) :
    getCustomerById db id avail = .failure 404 "Customer not found" := by
  have hnil : db.customers.filter (fun c => c.id == id) = [] := by
    rw [List.filter_eq_nil_iff]
    intro c hc
    simpa using hnone c hc
  simp only [getCustomerById, runQuery, h0, if_true, hnil]

theorem getCustomerByAccountNumber_missing {db : Store} {today : SqlDateTime}
    {avail : Nat → Bool} {accountNumber : String} (h0 : avail 0 = true)
    (hnone : ∀ c ∈ db.customers, c.account_number ≠ accountNumber) :
    getCustomerByAccountNumber db today avail accountNumber
      = .failure 404 "Account not found" := by
  have hnil : db.customers.filter (fun c => sqlTextEq c.account_number accountNumber) = [] := by
    rw [List.filter_eq_nil_iff]
    intro c hc
    simpa [sqlTextEq] using hnone c hc
  simp only [getCustomerByAccountNumber, runQuery, h0, if_true, hnil]

theorem historyStore_unique_id :
    ∀ c ∈ historyStore.customers, ∀ c' ∈ historyStore.customers, c'.id = c.id → c' = c := by
  intro c hc c' hc' h
  simp only [historyStore, List.mem_cons, List.mem_singleton, List.not_mem_nil, or_false]
    at hc hc'
  rcases hc with rfl | rfl <;> rcases hc' with rfl | rfl
  · rfl
  · exact absurd h (by decide)
  · exact absurd h (by decide)
  · rfl

theorem historyStore_unique_account :
    ∀ c ∈ historyStore.customers, ∀ c' ∈ historyStore.customers,
      c'.account_number = c.account_number → c' = c := by
  intro c hc c' hc' h
  simp only [historyStore, List.mem_cons, List.mem_singleton, List.not_mem_nil, or_false]
    at hc hc'
  rcases hc with rfl | rfl <;> rcases hc' with rfl | rfl
  · rfl
  · exact absurd h (by decide)
  · exact absurd h (by decide)
  · rfl

/-- C16: for a customer of the directory (ids and account numbers unique, store
answering), `getCustomerById` replies with exactly the stored customer record, a value
that has the six customer fields and no balance field, whereas
`getCustomerByAccountNumber` replies with a record that carries the same customer
fields unchanged together with the three balance fields (the month's total, a
non-negative remainder and the status); when no customer matches, both reply with the
not-found failure 404. -/
theorem lookup_asymmetry (db : Store) (today : SqlDateTime) (avail : Nat → Bool)
    (c : Customer) (hc : c ∈ db.customers)
    (hid : ∀ c' ∈ db.customers, c'.id = c.id → c' = c)
    (hacct : ∀ c' ∈ db.customers, c'.account_number = c.account_number → c' = c)
    (h0 : avail 0 = true) (h1 : avail 1 = true) :
    getCustomerById db c.id avail = .json 200 c
    ∧ (∃ r : CustomerWithBalance,
        getCustomerByAccountNumber db today avail c.account_number = .json 200 r
        ∧ r.customer = c
        ∧ r.total_paid_this_month = specTotalPaid db.payments c today
        ∧ 0 ≤ r.remaining_emi
        ∧ r.emi_status
            = if c.emi_due - r.total_paid_this_month ≤ 0 then "paid" else "pending")
    ∧ (∀ id, (∀ c' ∈ db.customers, c'.id ≠ id) →
        getCustomerById db id avail = .failure 404 "Customer not found")
    ∧ (∀ accountNumber, (∀ c' ∈ db.customers, c'.account_number ≠ accountNumber) →
        getCustomerByAccountNumber db today avail accountNumber
          = .failure 404 "Account not found") := by
  refine ⟨?_, ?_, fun id hnone => getCustomerById_missing h0 hnone,
    fun a hnone => getCustomerByAccountNumber_missing h0 hnone⟩
  · obtain ⟨t, ht⟩ := filter_head_of_unique (fun c' => c'.id == c.id) hc (by simp)
      (fun c' hc' h => hid c' hc' (by simpa using h))
    exact getCustomerById_found h0 ht
  · obtain ⟨t, ht⟩ := filter_head_of_unique
      (fun c' => sqlTextEq c'.account_number c.account_number) hc (by simp [sqlTextEq])
      (fun c' hc' h => hacct c' hc' (by simpa [sqlTextEq] using h))
    refine ⟨_, getCustomerByAccountNumber_found h0 h1 ht, rfl, ?_, ?_, ?_⟩
    · exact selectTotalPaid_eq_spec _ _ _
    · show 0 ≤ parseFloat
        (toFixed (max 0 (c.emi_due - selectTotalPaid db.payments c.id today)) 2)
      rw [parseFloat_toFixed_two (le_max_left _ _)]
      exact roundTo2Places_nonneg (le_max_left _ _)
    · show (if max 0 (c.emi_due - selectTotalPaid db.payments c.id today) ≤ 0 then "paid"
          else "pending")
        = if c.emi_due - selectTotalPaid db.payments c.id today ≤ 0 then "paid" else "pending"
      rw [if_congr (max_zero_nonpos_iff _) rfl rfl]

/-- Witness for C16: the customer `AC100` of a directory with two customers. -/
theorem lookup_asymmetry_witness :
    sampleCustomer ∈ historyStore.customers
      ∧ getCustomerById historyStore sampleCustomer.id allUp = .json 200 sampleCustomer
      ∧ (∃ r : CustomerWithBalance,
          getCustomerByAccountNumber historyStore sampleToday allUp
              sampleCustomer.account_number = .json 200 r
          ∧ r.customer = sampleCustomer) :=
  have hmem : sampleCustomer ∈ historyStore.customers := List.mem_cons_self _ _
  have h := lookup_asymmetry historyStore sampleToday allUp sampleCustomer hmem
    (historyStore_unique_id _ hmem) (historyStore_unique_account _ hmem) rfl rfl
  ⟨hmem, h.1, h.2.1.elim fun r hr => ⟨r, hr.1, hr.2.1⟩⟩

/-- C18: when the store answers and account numbers are unique, `getAllCustomers`
replies with one record per customer of the directory, in ascending order of id, and
each of these records is equal to the record `getCustomerByAccountNumber` replies with
for that customer's account number on the same store and date. -/
theorem getAllCustomers_agrees (db : Store) (today : SqlDateTime) (avail : Nat → Bool)
    (hup : ∀ k, avail k = true)
    (hacct : ∀ c ∈ db.customers, ∀ c' ∈ db.customers,
      c'.account_number = c.account_number → c' = c) :
    ∃ records, getAllCustomers db today avail = .json 200 records
      ∧ (records.map (fun r => r.customer)).Perm db.customers
      ∧ (records.map (fun r => r.customer)).Sorted (fun a b => a.id ≤ b.id)
      ∧ ∀ r ∈ records,
          getCustomerByAccountNumber db today avail r.customer.account_number = .json 200 r := by
  obtain ⟨records, hrep, hmap⟩ := @getAllCustomers_up db today avail hup
  refine ⟨records, hrep, ?_, ?_, ?_⟩
  · rw [hmap]
    exact List.perm_insertionSort _ _
  · rw [hmap]
    haveI : IsTotal Customer (fun a b => a.id ≤ b.id) := ⟨fun a b => le_total a.id b.id⟩
    haveI : IsTrans Customer (fun a b => a.id ≤ b.id) := ⟨fun _ _ _ h₁ h₂ => le_trans h₁ h₂⟩
    exact List.sorted_insertionSort (fun a b => a.id ≤ b.id) db.customers
  · intro r hr
    obtain ⟨hmem, htot, hrem, hst⟩ := getAllCustomers_fields hrep r hr
    obtain ⟨t, ht⟩ := filter_head_of_unique
      (fun c' => sqlTextEq c'.account_number r.customer.account_number) hmem
      (by simp [sqlTextEq])
      (fun c' hc' h => hacct r.customer hmem c' hc' (by simpa [sqlTextEq] using h))
    rw [getCustomerByAccountNumber_found (hup 0) (hup 1) ht]
    congr 1
    cases r with
    | mk customer total remaining status =>
      simp only at htot hrem hst ⊢
      subst htot
      rw [← hrem, ← hst]

/-- Witness for C18: the listing of a directory with two customers. -/
theorem getAllCustomers_agrees_witness :
    (∀ k, allUp k = true)
      ∧ ∃ records, getAllCustomers historyStore sampleToday allUp = .json 200 records
        ∧ (records.map (fun r => r.customer)).Perm historyStore.customers
        ∧ (records.map (fun r => r.customer)).Sorted (fun a b => a.id ≤ b.id)
        ∧ ∀ r ∈ records,
            getCustomerByAccountNumber historyStore sampleToday allUp
              r.customer.account_number = .json 200 r :=
  ⟨fun _ => rfl,
    getAllCustomers_agrees historyStore sampleToday allUp (fun _ => rfl)
      historyStore_unique_account⟩

/-! ## The calendar: auxiliary facts -/

theorem exists_yearOfEra (doe : Nat) (_h : doe < 146097) :
    ∃ k < 400, 365 * k + k / 4 - k / 100 ≤ doe
      ∧ (k < 399 → doe < 365 * (k + 1) + (k + 1) / 4 - (k + 1) / 100) := by
  have hP0 : (fun k => 365 * k + k / 4 - k / 100 ≤ doe) 0 := by simp
  refine ⟨Nat.findGreatest (fun k => 365 * k + k / 4 - k / 100 ≤ doe) 399, ?_, ?_, ?_⟩
  · exact Nat.lt_succ_of_le (Nat.findGreatest_le 399)
  · exact Nat.findGreatest_spec (P := fun k => 365 * k + k / 4 - k / 100 ≤ doe) (Nat.zero_le 399) hP0
  · intro hlt
    have := Nat.findGreatest_is_greatest (P := fun k => 365 * k + k / 4 - k / 100 ≤ doe)
      (Nat.lt_succ_self _) (Nat.succ_le_of_lt hlt)
    simp only [not_le] at this
    exact this

theorem daysBeforeMonth_cases (y : Int) (m : Nat) (h1 : 1 ≤ m) (h12 : m ≤ 12) :
    (m = 1 ∧ daysBeforeMonth y m = 0) ∨ (m = 2 ∧ daysBeforeMonth y m = 31)
    ∨ (3 ≤ m ∧ daysBeforeMonth y m
        = (if isLeapYear y then 60 else 59) + (153 * (m - 3) + 2) / 5) := by
  interval_cases m <;> simp [daysBeforeMonth, daysInMonth, List.range_succ] <;> split <;> rfl

set_option maxHeartbeats 8000000 in
theorem yoeOf_block : ∀ yoe < 400, ∀ doe, 365 * yoe + yoe / 4 - yoe / 100 ≤ doe → doe < 146097 →
    (yoe < 399 → doe < 365 * (yoe + 1) + (yoe + 1) / 4 - (yoe + 1) / 100) →
    (doe - doe / 1460 + doe / 36524 - doe / 146096) / 365 = yoe := by
  intro yoe hy doe h1 h3 h4
  interval_cases yoe <;> omega

theorem isLeapYear_iff (y : Int) :
    isLeapYear y = true ↔ y % 4 = 0 ∧ (y % 100 ≠ 0 ∨ y % 400 = 0) := by
  simp [isLeapYear]

theorem daysBeforeYear_next (yoe : Nat) (era : Int) (h : yoe < 400) :
    daysBeforeYear ((yoe : Int) + era * 400 + 1)
      = era * 146097 + ((365 * yoe + yoe / 4 - yoe / 100 : Nat) : Int) + 366 := by
  unfold daysBeforeYear
  have hq : yoe / 100 ≤ yoe / 4 := by omega
  have e4 : ((yoe : Int) + era * 400 + 1 + 3) / 4 = ((yoe / 4 : Nat) : Int) + era * 100 + 1 := by
    omega
  have e100 : ((yoe : Int) + era * 400 + 1 + 99) / 100
      = ((yoe / 100 : Nat) : Int) + era * 4 + 1 := by omega
  have e400 : ((yoe : Int) + era * 400 + 1 + 399) / 400 = era + 1 := by omega
  rw [e4, e100, e400]
  omega

theorem daysBeforeYear_era (yoe : Nat) (era : Int) (h : yoe < 400) :
    daysBeforeYear ((yoe : Int) + era * 400)
      = era * 146097 + ((365 * yoe + yoe / 4 - yoe / 100 : Nat) : Int)
        + (if isLeapYear ((yoe : Int) + era * 400) = true then 0 else 1) := by
  unfold daysBeforeYear
  have hleap : isLeapYear ((yoe : Int) + era * 400) = true
      ↔ yoe % 4 = 0 ∧ (yoe % 100 ≠ 0 ∨ yoe = 0) := by
    rw [isLeapYear_iff]
    omega
  have hcast : ((365 * yoe + yoe / 4 - yoe / 100 : Nat) : Int)
      = 365 * (yoe : Int) + ((yoe / 4 : Nat) : Int) - ((yoe / 100 : Nat) : Int) := by omega
  have e4 : (yoe % 4 = 0 ∧ ((yoe : Int) + era * 400 + 3) / 4
        = ((yoe / 4 : Nat) : Int) + era * 100)
      ∨ (yoe % 4 ≠ 0 ∧ ((yoe : Int) + era * 400 + 3) / 4
          = ((yoe / 4 : Nat) : Int) + era * 100 + 1) := by omega
  have e100 : (yoe % 100 = 0 ∧ ((yoe : Int) + era * 400 + 99) / 100
        = ((yoe / 100 : Nat) : Int) + era * 4)
      ∨ (yoe % 100 ≠ 0 ∧ ((yoe : Int) + era * 400 + 99) / 100
          = ((yoe / 100 : Nat) : Int) + era * 4 + 1) := by omega
  have e400 : (yoe = 0 ∧ ((yoe : Int) + era * 400 + 399) / 400 = era)
      ∨ (yoe ≠ 0 ∧ ((yoe : Int) + era * 400 + 399) / 400 = era + 1) := by omega
  by_cases hl : isLeapYear ((yoe : Int) + era * 400) = true
  · rw [if_pos hl, hcast]
    rw [hleap] at hl
    rcases e4 with ⟨c4, e4⟩ | ⟨c4, e4⟩ <;> rcases e100 with ⟨c100, e100⟩ | ⟨c100, e100⟩ <;>
      rcases e400 with ⟨c0, e400⟩ | ⟨c0, e400⟩ <;>
      first
        | (exfalso; clear e4 e100 e400 hcast; omega)
        | (rw [e4, e100, e400]; ring)
  · rw [if_neg hl, hcast]
    rw [hleap] at hl
    rcases e4 with ⟨c4, e4⟩ | ⟨c4, e4⟩ <;> rcases e100 with ⟨c100, e100⟩ | ⟨c100, e100⟩ <;>
      rcases e400 with ⟨c0, e400⟩ | ⟨c0, e400⟩ <;>
      first
        | (exfalso; clear e4 e100 e400 hcast; omega)
        | (rw [e4, e100, e400]; ring)

theorem civilFromDays_spec (n : Int) :
    1 ≤ (civilFromDays n).2.1 ∧ (civilFromDays n).2.1 ≤ 12
    ∧ 1 ≤ (civilFromDays n).2.2
    ∧ (civilFromDays n).2.2 ≤ daysInMonth (civilFromDays n).1 (civilFromDays n).2.1
    ∧ daysFromCivil (civilFromDays n).1 (civilFromDays n).2.1 (civilFromDays n).2.2 = n := by
  -- the day of the era and the year of the era
  obtain ⟨doe, hdoe, hz⟩ : ∃ doe : Nat, doe < 146097
      ∧ n + 719468 = (n + 719468) / 146097 * 146097 + doe := by
    refine ⟨((n + 719468) - (n + 719468) / 146097 * 146097).toNat, ?_, ?_⟩ <;> omega
  have hdoe' : ((n + 719468) - (n + 719468) / 146097 * 146097).toNat = doe := by omega
  obtain ⟨yoe, hyoe, hstart, hnext⟩ := exists_yearOfEra doe hdoe
  have hy := yoeOf_block yoe hyoe doe hstart hdoe hnext
  simp only [civilFromDays, hdoe', hy]
  clear hy hdoe'
  generalize (n + 719468) / 146097 = era at hz ⊢
  -- the day of the year, counted from 1 March
  obtain ⟨doy, hdoy⟩ : ∃ doy, doy = doe - (365 * yoe + yoe / 4 - yoe / 100) := ⟨_, rfl⟩
  rw [← hdoy]
  have h4 : (yoe + 1) / 4 = yoe / 4 ∨ ((yoe + 1) / 4 = yoe / 4 + 1 ∧ yoe % 4 = 3) := by omega
  have h100 : ((yoe + 1) / 100 = yoe / 100 ∧ yoe % 100 ≠ 99)
      ∨ ((yoe + 1) / 100 = yoe / 100 + 1 ∧ yoe % 100 = 99) := by omega
  have hq : yoe / 100 ≤ yoe / 4 := by omega
  have hdoy365 : doy ≤ 365 := by omega
  have hleapday : doy = 365 → yoe % 4 = 3 ∧ (yoe % 100 ≠ 99 ∨ yoe = 399) := by omega
  have hdoe_eq : (doe : Int) = ((365 * yoe + yoe / 4 - yoe / 100 : Nat) : Int) + doy := by omega
  have hera := daysBeforeYear_era yoe era hyoe
  have hnextYear := daysBeforeYear_next yoe era hyoe
  clear hdoy hnext hstart h4 h100 hq
  generalize ((365 * yoe + yoe / 4 - yoe / 100 : Nat) : Int) = start at hdoe_eq hera hnextYear
  obtain ⟨mp, hmp⟩ : ∃ mp, mp = (5 * doy + 2) / 153 := ⟨_, rfl⟩
  rw [← hmp]
  have hmp11 : mp ≤ 11 := by omega
  obtain ⟨d, hd⟩ : ∃ d, d = doy - (153 * mp + 2) / 5 + 1 := ⟨_, rfl⟩
  rw [← hd]
  have hd1 : 1 ≤ d := by omega
  have hdoy_eq : doy = (153 * mp + 2) / 5 + d - 1 := by omega
  by_cases hlt : mp < 10
  · -- March to December
    have hm : (if mp < 10 then mp + 3 else mp - 9) = mp + 3 := if_pos hlt
    simp only [hm]
    have hnot : ¬ (mp + 3 ≤ 2) := by omega
    simp only [hnot, if_false]
    refine ⟨by omega, by omega, hd1, ?_, ?_⟩
    · clear hera hnextYear hz hdoe_eq hleapday
      interval_cases mp <;> simp [daysInMonth] <;> omega
    · rcases daysBeforeMonth_cases ((yoe : Int) + era * 400) (mp + 3) (by omega) (by omega)
        with ⟨h, _⟩ | ⟨h, _⟩ | ⟨_, hdbm⟩
      · omega
      · omega
      · unfold daysFromCivil
        rw [hdbm, hera, Nat.add_sub_cancel]
        clear hdbm hera hnextYear hleapday hmp hd
        by_cases hleap : isLeapYear ((yoe : Int) + era * 400) = true
        · simp only [hleap, if_true]
          push_cast
          omega
        · simp only [hleap]
          push_cast
          omega
  · -- January and February belong to the next civil year
    have hm : (if mp < 10 then mp + 3 else mp - 9) = mp - 9 := if_neg hlt
    simp only [hm]
    have hle : mp - 9 ≤ 2 := by omega
    simp only [hle, if_true]
    refine ⟨by omega, by omega, hd1, ?_, ?_⟩
    · have hmp10 : 10 ≤ mp := not_lt.mp hlt
      clear hera hnextYear hz hdoe_eq
      interval_cases mp
      · simp [daysInMonth]; omega
      · by_cases hleap : isLeapYear ((yoe : Int) + era * 400 + 1) = true
        · simp only [daysInMonth, hleap, if_true]
          omega
        · have hleap' := hleap
          rw [isLeapYear_iff] at hleap'
          simp only [daysInMonth, hleap, Bool.false_eq_true, if_false]
          omega
    · rcases daysBeforeMonth_cases ((yoe : Int) + era * 400 + 1) (mp - 9) (by omega) (by omega)
        with ⟨_, hdbm⟩ | ⟨_, hdbm⟩ | ⟨h, _⟩
      · unfold daysFromCivil
        rw [hdbm, hnextYear]
        push_cast
        omega
      · unfold daysFromCivil
        rw [hdbm, hnextYear]
        push_cast
        omega
      · omega

theorem padDigits_two (n : Nat) : padDigits 2 n = [digitChar (n / 10), digitChar n] := by
  simp [padDigits, List.range_succ]

theorem padDigits_three (n : Nat) :
    padDigits 3 n = [digitChar (n / 100), digitChar (n / 10), digitChar n] := by
  simp [padDigits, List.range_succ]

theorem padDigits_four (n : Nat) :
    padDigits 4 n
      = [digitChar (n / 1000), digitChar (n / 100), digitChar (n / 10), digitChar n] := by
  simp [padDigits, List.range_succ]

theorem digitChar_isDigit (d : Nat) : (digitChar d).isDigit = true := by
  have h : d % 10 < 10 := Nat.mod_lt _ (by norm_num)
  unfold digitChar
  generalize d % 10 = r at h
  interval_cases r <;> decide

theorem digitChar_ne_T (d : Nat) : digitChar d ≠ 'T' := by
  intro h
  have := digitChar_isDigit d
  rw [h] at this
  exact absurd this (by decide)

theorem utc_fields (tv : Int) :
    tv / 86400000 = tv / 1000 / 86400
    ∧ (tv % 86400000).toNat / 3600000 = ((tv / 1000) % 86400).toNat / 3600
    ∧ (tv % 86400000).toNat / 60000 % 60 = ((tv / 1000) % 86400).toNat / 60 % 60
    ∧ (tv % 86400000).toNat / 1000 % 60 = ((tv / 1000) % 86400).toNat % 60
    ∧ (tv % 86400000).toNat % 1000 = (tv % 1000).toNat := by
  refine ⟨?_, ?_, ?_, ?_, ?_⟩ <;> omega

theorem isoYear_of_range {y : Int} (hy : 0 ≤ y ∧ y ≤ 9999) : isoYear y = padDigits 4 y.toNat := by
  unfold isoYear
  rw [if_pos hy]

/-- The ISO-8601 text of an instant whose UTC year lies in 0 to 9999, field by field. -/
theorem toISOString_of_range (tv : Int)
    (hy : 0 ≤ (civilFromDays (tv / 1000 / 86400)).1
      ∧ (civilFromDays (tv / 1000 / 86400)).1 ≤ 9999) :
    toISOString tv
      = padDigits 4 (utcDateTime tv).year ++ '-' :: padDigits 2 (utcDateTime tv).month
          ++ '-' :: padDigits 2 (utcDateTime tv).day ++ 'T' :: padDigits 2 (utcDateTime tv).hour
          ++ ':' :: padDigits 2 (utcDateTime tv).minute
          ++ ':' :: padDigits 2 (utcDateTime tv).second
          ++ '.' :: padDigits 3 (tv % 1000).toNat ++ ['Z'] := by
  obtain ⟨h1, h2, h3, h4, h5⟩ := utc_fields tv
  simp only [toISOString, utcDateTime, h1, h2, h3, h4, h5, isoYear_of_range hy]

theorem formatForMySQL_of_range (tv : Int)
    (hy : 0 ≤ (civilFromDays (tv / 1000 / 86400)).1
      ∧ (civilFromDays (tv / 1000 / 86400)).1 ≤ 9999) :
    replaceFirst 'T' ' ' ((toISOString tv).take 19) = timestampText (utcDateTime tv) := by
  rw [toISOString_of_range tv hy]
  simp [timestampText, padDigits_two, padDigits_three, padDigits_four, replaceFirst,
    digitChar_ne_T]

/-- The calendar timestamp of an instant is a valid date and time of day, and denotes
the instant's whole seconds. -/
theorem utcDateTime_spec (tv : Int) (hy : 0 ≤ (civilFromDays (tv / 1000 / 86400)).1) :
    1 ≤ (utcDateTime tv).month ∧ (utcDateTime tv).month ≤ 12
    ∧ 1 ≤ (utcDateTime tv).day
    ∧ (utcDateTime tv).day ≤ daysInMonth (utcDateTime tv).year (utcDateTime tv).month
    ∧ (utcDateTime tv).hour < 24 ∧ (utcDateTime tv).minute < 60
    ∧ (utcDateTime tv).second < 60
    ∧ secondsOf (utcDateTime tv) = tv / 1000 := by
  obtain ⟨hm1, hm12, hd1, hdm, hdays⟩ := civilFromDays_spec (tv / 1000 / 86400)
  have hyear : (((civilFromDays (tv / 1000 / 86400)).1.toNat : Nat) : Int)
      = (civilFromDays (tv / 1000 / 86400)).1 := Int.toNat_of_nonneg hy
  simp only [utcDateTime, secondsOf, hyear]
  refine ⟨hm1, hm12, hd1, hdm, ?_, ?_, ?_, ?_⟩
  · omega
  · omega
  · omega
  · rw [hdays]
    omega

/-! ## Payment recording: the normalized timestamp -/

/-- C17: for a supplied `payment_date` that parses to a valid instant whose UTC year
lies in 0000 to 9999, the timestamp `makePayment` passes to the insert is the text
`YYYY-MM-DD HH:MM:SS` of the instant's UTC date and time of day truncated to whole
seconds: it has 19 characters, it is the first 19 characters of the ISO-8601 text with
the `T` replaced by a space, what is cut off is the fraction of the second and the
zone suffix `Z`, it consists of digits and the separators only, and its fields are a
valid calendar date and time denoting the whole seconds of the instant, rounded down. -/
theorem formattedDate_normalized (rt : Runtime) (s : String) (tv : Int) (hs : s ≠ "")
    (hp : rt.dateParse s = some tv)
    (hy : 0 ≤ (civilFromDays (tv / 1000 / 86400)).1
      ∧ (civilFromDays (tv / 1000 / 86400)).1 ≤ 9999) :
    formattedDate rt (some s) = some (String.mk (timestampText (utcDateTime tv)))
    ∧ (timestampText (utcDateTime tv)).length = 19
    ∧ timestampText (utcDateTime tv) = replaceFirst 'T' ' ' ((toISOString tv).take 19)
    ∧ toISOString tv
        = (toISOString tv).take 19 ++ '.' :: padDigits 3 (tv % 1000).toNat ++ ['Z']
    ∧ (∀ c ∈ timestampText (utcDateTime tv),
        c.isDigit = true ∨ c = '-' ∨ c = ' ' ∨ c = ':')
    ∧ secondsOf (utcDateTime tv) = tv / 1000
    ∧ (1 ≤ (utcDateTime tv).month ∧ (utcDateTime tv).month ≤ 12
        ∧ 1 ≤ (utcDateTime tv).day
        ∧ (utcDateTime tv).day ≤ daysInMonth (utcDateTime tv).year (utcDateTime tv).month
        ∧ (utcDateTime tv).hour < 24 ∧ (utcDateTime tv).minute < 60
        ∧ (utcDateTime tv).second < 60) := by
  obtain ⟨hm1, hm12, hd1, hdm, hh, hmi, hse, hsec⟩ := utcDateTime_spec tv hy.1
  refine ⟨?_, ?_, (formatForMySQL_of_range tv hy).symm, ?_, ?_, hsec,
    hm1, hm12, hd1, hdm, hh, hmi, hse⟩
  · simp only [formattedDate, truthyText_some hs, if_true, Option.getD_some, hp, Option.map_some',
      formatForMySQL, formatForMySQL_of_range tv hy]
  · simp [timestampText, padDigits_two, padDigits_four]
  · rw [toISOString_of_range tv hy]
    simp [padDigits_two, padDigits_three, padDigits_four]
  · intro c hc
    simp only [timestampText, padDigits_two, padDigits_four, List.cons_append, List.nil_append,
      List.mem_cons, List.mem_singleton, List.not_mem_nil, or_false] at hc
    rcases hc with h | h | h | h | h | h | h | h | h | h | h | h | h | h | h | h | h | h | h <;>
      first
        | (left; rw [h]; exact digitChar_isDigit _)
        | (right; left; exact h)
        | (right; right; left; exact h)
        | (right; right; right; exact h)

/-- Witness for C17: `2024-06-03T10:30:00.000Z` is passed on as `2024-06-03 10:30:00`. -/
theorem formattedDate_normalized_witness :
    formattedDate sampleRuntime (some "2024-06-03T10:30:00.000Z")
        = some (String.mk (timestampText (utcDateTime 1717410600000)))
      ∧ String.mk (timestampText (utcDateTime 1717410600000)) = "2024-06-03 10:30:00"
      ∧ secondsOf (utcDateTime 1717410600000) = 1717410600000 / 1000 :=
  have h := formattedDate_normalized sampleRuntime "2024-06-03T10:30:00.000Z" 1717410600000
    (by decide) rfl (by decide)
  ⟨h.1, rfl, h.2.2.2.2.2.1⟩

/-! ## Client-side validation -/

namespace PaymentScreen

theorem leZero_eq_false_iff (x : JsNumber) :
    leZero x = false ↔ x = .nan ∨ x = .infinity false ∨ ∃ q : ℚ, 0 < q ∧ x = .num q := by
  cases x with
  | nan => simp [leZero]
  | infinity negative => cases negative <;> simp [leZero]
  | num value =>
    simp only [leZero, decide_eq_false_iff_not, not_le, false_or, JsNumber.num.injEq,
      exists_eq_right', reduceCtorEq]

/-- The validation lets a submission through exactly when both trimmed texts are
non-empty and `parseFloat(amount) <= 0` is false, which holds for a positive number,
for `Infinity` and for `NaN`. -/
theorem handleSubmit_proceeds_iff (accountNumber amount : String) :
    (∃ n, handleSubmit accountNumber amount = .proceed accountNumber n)
      ↔ trim accountNumber ≠ [] ∧ trim amount ≠ []
        ∧ (parseFloat amount = .nan ∨ parseFloat amount = .infinity false
            ∨ ∃ q : ℚ, 0 < q ∧ parseFloat amount = .num q) := by
  rw [← leZero_eq_false_iff]
  unfold handleSubmit
  by_cases ha : (trim accountNumber).isEmpty = true
  · have ha' : trim accountNumber = [] := List.isEmpty_iff.mp ha
    simp [ha, ha']
  · have ha' : trim accountNumber ≠ [] := fun h => ha (List.isEmpty_iff.mpr h)
    by_cases hm : (trim amount).isEmpty = true
    · have hm' : trim amount = [] := List.isEmpty_iff.mp hm
      simp [ha, hm, hm']
    · have hm' : trim amount ≠ [] := fun h => hm (List.isEmpty_iff.mpr h)
      cases hl : leZero (parseFloat amount) <;> simp [ha, hm, hl, ha', hm']

theorem parseFloat_sample_5000 : parseFloat "5000" = .num 5000 := by
  have hnum : toNumber 5000 = some 5000 := by
    rw [toNumber_eq 12 5497558138880000 (by norm_num) (by norm_num) (by norm_num)
      (by norm_num [abs_lt]) (by norm_num [abs_lt])]
    norm_num
  have hw : "5000".toList.dropWhile isWhiteSpace = ['5', '0', '0', '0'] := by decide
  have hI : beginsWith "Infinity".toList ['5', '0', '0', '0'] = false := by decide
  have hm : beginsWith ['-'] ['5', '0', '0', '0'] = false := by decide
  have hp : beginsWith ['+'] ['5', '0', '0', '0'] = false := by decide
  have hi : ['5', '0', '0', '0'].takeWhile Char.isDigit = ['5', '0', '0', '0'] := by decide
  have hd : ['5', '0', '0', '0'].dropWhile Char.isDigit = [] := by decide
  have hdot : beginsWith ['.'] [] = false := by decide
  have he : exponentOf [] = 0 := by decide
  have hv : digitsValue ['5', '0', '0', '0'] = 5000 := by decide
  have hv0 : digitsValue [] = 0 := by decide
  have hemp : (['5', '0', '0', '0'] : List Char).isEmpty = false := by decide
  have e : (((5000 : ℕ) : ℚ) + ((0 : ℕ) : ℚ) / 10 ^ ([] : List Char).length) * 10 ^ (0 : ℤ)
      = 5000 := by norm_num
  simp only [parseFloat, hw, hI, hm, hp, hi, hd, hdot, he, hv, hv0, hemp, Bool.false_eq_true,
    if_false, Bool.or_false, Bool.false_and, e, hnum]

theorem parseFloat_sample_zero : parseFloat "0" = .num 0 := by
  have hw : "0".toList.dropWhile isWhiteSpace = ['0'] := by decide
  have hI : beginsWith "Infinity".toList ['0'] = false := by decide
  have hm : beginsWith ['-'] ['0'] = false := by decide
  have hp : beginsWith ['+'] ['0'] = false := by decide
  have hi : ['0'].takeWhile Char.isDigit = ['0'] := by decide
  have hd : ['0'].dropWhile Char.isDigit = [] := by decide
  have hdot : beginsWith ['.'] [] = false := by decide
  have he : exponentOf [] = 0 := by decide
  have hv : digitsValue ['0'] = 0 := by decide
  have hv0 : digitsValue [] = 0 := by decide
  have hemp : (['0'] : List Char).isEmpty = false := by decide
  have e : (((0 : ℕ) : ℚ) + ((0 : ℕ) : ℚ) / 10 ^ ([] : List Char).length) * 10 ^ (0 : ℤ)
      = 0 := by norm_num
  simp only [parseFloat, hw, hI, hm, hp, hi, hd, hdot, he, hv, hv0, hemp, Bool.false_eq_true,
    if_false, Bool.or_false, Bool.false_and, e, toNumber_zero]

/-- A positive amount passes the validation and a zero amount is stopped by the alert. -/
theorem handleSubmit_samples :
    handleSubmit "AC100" "5000" = .proceed "AC100" (.num 5000)
      ∧ handleSubmit "AC100" "0" = .alert "Error" "Please enter a valid payment amount"
      ∧ handleSubmit "  " "5000" = .alert "Error" "Please enter your account number"
      ∧ handleSubmit "AC100" "  " = .alert "Error" "Please enter a valid payment amount" := by
  have ha : (trim "AC100").isEmpty = false := by decide
  have h5 : (trim "5000").isEmpty = false := by decide
  have h0 : (trim "0").isEmpty = false := by decide
  have hb : (trim "  ").isEmpty = true := by decide
  have hpos : leZero (.num 5000) = false := by
    simp only [leZero, decide_eq_false_iff_not, not_le]; norm_num
  have hzero : leZero (.num 0) = true := by
    simp only [leZero, decide_eq_true_eq]; norm_num
  refine ⟨?_, ?_, ?_, ?_⟩
  · simp only [handleSubmit, ha, h5, parseFloat_sample_5000, hpos, Bool.false_eq_true,
      if_false, Bool.or_false]
  · simp only [handleSubmit, ha, h0, parseFloat_sample_zero, hzero, Bool.false_eq_true,
      if_false, Bool.or_true, if_true]
  · simp only [handleSubmit, hb, if_true]
  · simp only [handleSubmit, ha, hb, Bool.false_eq_true, if_false, Bool.true_or, if_true]

/-- C19: the claim that the screen proceeds past validation only for an amount text that
parses to a number strictly greater than 0 does not hold of `handleSubmit`: for the
account number `AC100` and the amount text `abc`, `parseFloat` gives `NaN`, the test
`parseFloat(amount) <= 0` is false, no alert is shown and the screen proceeds to the
account verification and to `makePayment` with `payment_amount` `NaN`. -/
theorem handleSubmit_not_a_number :
    handleSubmit "AC100" "abc" = .proceed "AC100" .nan := by
  rfl

end PaymentScreen

end PaymentCollection
